import Mathlib

/-!
# duckOS: memory system calls, ELF loading and River serialization

A shallow embedding of
* the `Process::sys_mem*` / `Process::sys_shm*` system calls of `kernel/syscall/mem.cpp`,
* `ELF::can_execute`, `ELF::read_program_headers`, `ELF::read_interp` and
  `ELF::load_sections` of `kernel/tasking/elf.cpp`,
* `buffer_size`, `serialize` and `deserialize` of `libraries/libriver/serialization_utils.h`.

Every such definition follows the C++ body statement by statement.  The helpers those
bodies call and whose source files are not in the tree (`AnonymousVMObject`, `VMSpace`,
`Process::map_object`, `TaskManager`, the memory map of a page directory,
`FileDescriptor`) are modelled from the specification, and their doc comments say so.
-/

namespace DuckOS

/-! ## Constants and machine words -/

/-- Size of a page. -/
def PAGE_SIZE : Nat := 4096

/-- Pointers and `size_t` are 32 bits wide on the i386 target: arithmetic on them is
taken modulo this value. -/
def WORD : Nat := 4294967296

def SUCCESS : Int := 0
def ENOENT : Int := 2
def ENOMEM : Int := 12
def EINVAL : Int := 22

/-- Permission word of `shmallow`, bit 0. -/
def SHM_READ : Nat := 1
/-- Permission word of `shmallow`, bit 1. -/
def SHM_WRITE : Nat := 2
/-- Permission word of `shmallow`, bit 2. -/
def SHM_SHARE : Nat := 4

/-- The cast `(void*) v` of a (possibly negative) `int` to a 32-bit pointer. -/
def to_ptr (v : Int) : Nat := (v % (WORD : Int)).toNat

/-- The user-side reading of a returned pointer: values in `[-4095, -1]` are errors. -/
def is_error_ptr (ptr : Nat) : Bool := decide (WORD - 4095 ≤ ptr)

/-- `a += b` on a `size_t`. -/
def size_add (a b : Nat) : Nat := (a + b) % WORD

/-- `a -= b` on a `size_t`. -/
def size_sub (a b : Nat) : Nat := (a + (WORD - b % WORD)) % WORD

/-! ## Data model -/

/-- Protection of a mapping (`VMProt`). -/
structure VMProt where
  read : Bool
  write : Bool
  execute : Bool
  cow : Bool
  deriving DecidableEq, Repr

/-- `VMProt::RW`. -/
def VMProt.RW : VMProt := { read := true, write := true, execute := false, cow := false }

/-- An `AnonymousVMObject`.  `ident` stands for the address of the object, which is what
comparing two `shared_ptr`s compares; `shm_id` is `none` until the object is published. -/
structure AnonymousVMObject where
  ident : Nat
  size : Nat
  shm_id : Option Int
  shared_permissions : List (Int × VMProt)
  deriving DecidableEq, Repr

/-- A `VMRegion` as built by the constructor in `VMRegion.cpp`: the object it maps (by
identity), its start, its size and its protection. -/
structure VMRegion where
  object : Nat
  start : Nat
  size : Nat
  prot : VMProt
  deriving DecidableEq, Repr

/-- A `VMSpace`: an address range and the regions mapped in it. -/
structure VMSpace where
  start : Nat
  size : Nat
  regions : List VMRegion
  deriving DecidableEq, Repr

/-- The user-visible `struct shm { void* ptr; size_t size; int32_t id; }`. -/
structure shm where
  ptr : Nat
  size : Nat
  id : Int
  deriving DecidableEq, Repr

/-- The fields of a `Process` the memory system calls read or write. -/
structure Process where
  pid : Int
  vm_space : VMSpace
  vm_regions : List VMRegion
  used_pmem : Nat
  used_shmem : Nat
  deriving DecidableEq, Repr

/-- Kernel state outside the calling process: the shared-memory registry
(`s_shared_objects`, newest entry first, with the next id to hand out), the pids known to
the `TaskManager`, and the identity the next allocated object receives. -/
structure Kernel where
  next_ident : Nat
  s_cur_shm_id : Int
  s_shared_objects : List AnonymousVMObject
  processes : List Int
  deriving DecidableEq, Repr

/-! ## Helpers defined outside `mem.cpp` -/

/-- Round a size up to a multiple of the page size. -/
def page_round_up (size : Nat) : Nat := (size + PAGE_SIZE - 1) / PAGE_SIZE * PAGE_SIZE

/-- Modelled from the spec: `AnonymousVMObject::alloc(size)` (AnonymousVMObject.cpp is
not in the tree).  §3: the size of a VM object is a multiple of the page size; §4.1: the
allocation fails with out-of-memory when no frame is available, which a user-initiated
allocation reports as ENOMEM.  The physical memory manager is not modelled, so whether
frames are lacking is the input `fail`. -/
def AnonymousVMObject.alloc (fail : Bool) (k : Kernel) (size : Nat) :
    Except Int (AnonymousVMObject × Kernel) :=
  if fail then .error ENOMEM
  else
    .ok ({ ident := k.next_ident, size := page_round_up size, shm_id := none,
           shared_permissions := [] },
         { k with next_ident := k.next_ident + 1 })

/-- The permission map of an object with the entry of `pid` set to `prot`. -/
def set_permissions (perms : List (Int × VMProt)) (pid : Int) (prot : VMProt) :
    List (Int × VMProt) :=
  (pid, prot) :: perms.filter (fun e => e.1 != pid)

/-- Modelled from the spec: `AnonymousVMObject::share(pid, prot)` (not in the tree).  §4.9: the
registry maps an id to (object, map of pid → permissions); ids are monotonically
allocated; `create` assigns an id and registers the creator, `allow` sets the target pid's
permissions.  The first `share` of an object publishes it under the next id; every `share`
sets the entry of `pid`.  The object is mutated in place, so every registry entry with the
same identity sees the change. -/
def AnonymousVMObject.share (k : Kernel) (o : AnonymousVMObject) (pid : Int) (prot : VMProt) :
    AnonymousVMObject × Kernel :=
  match o.shm_id with
  | none =>
    let o1 := { o with shm_id := some k.s_cur_shm_id,
                       shared_permissions := set_permissions o.shared_permissions pid prot }
    (o1, { k with s_cur_shm_id := k.s_cur_shm_id + 1,
                  s_shared_objects := o1 :: k.s_shared_objects })
  | some _ =>
    let o1 := { o with shared_permissions := set_permissions o.shared_permissions pid prot }
    (o1, { k with s_shared_objects :=
                    k.s_shared_objects.map (fun x => if x.ident = o.ident then o1 else x) })

/-- Modelled from the spec: `AnonymousVMObject::get_shared(id)` (not in the tree).  §4.9 `attach`:
looks up the object, ENOENT if the id is absent. -/
def AnonymousVMObject.get_shared (k : Kernel) (id : Int) : Except Int AnonymousVMObject :=
  match k.s_shared_objects.find? (fun o => o.shm_id == some id) with
  | some o => .ok o
  | none => .error ENOENT

/-- Modelled from the spec: `AnonymousVMObject::get_shared_permissions(pid)` (not in the tree).
§4.9 `attach`: ENOENT if the caller is not permitted, otherwise the permissions the caller
was granted. -/
def AnonymousVMObject.get_shared_permissions (o : AnonymousVMObject) (pid : Int) :
    Except Int VMProt :=
  match o.shared_permissions.lookup pid with
  | some prot => .ok prot
  | none => .error ENOENT

/-- `object->shm_id()`. -/
def AnonymousVMObject.shm_id_value (o : AnonymousVMObject) : Int := o.shm_id.getD 0

/-- Modelled from the spec: `TaskManager::process_for_pid(pid).is_error()` (not in the tree): the
pid is unknown. -/
def process_for_pid_is_error (k : Kernel) (pid : Int) : Bool := !(k.processes.contains pid)

/-- The range `[a, a + size)` lies in the space and overlaps no region of it. -/
def VMSpace.is_free (s : VMSpace) (a size : Nat) : Bool :=
  decide (s.start ≤ a) && decide (a + size ≤ s.start + s.size) &&
    s.regions.all (fun r => decide (a + size ≤ r.start) || decide (r.start + r.size ≤ a))

/-- The least element of a list of addresses. -/
def lowest : List Nat → Option Nat
  | [] => none
  | a :: rest =>
    match lowest rest with
    | none => some a
    | some b => some (min a b)

/-- Modelled from the spec: the address choice of `VMSpace::map_object(object, prot)`
(not in the tree).  §4.4: picks a free VA range of the object's size by a first-fit walk of the
region set: the lowest free range starts at the start of the space or at the end of a
region. -/
def VMSpace.alloc_space (s : VMSpace) (size : Nat) : Option Nat :=
  lowest ((s.start :: s.regions.map (fun r => r.start + r.size)).filter
    (fun a => s.is_free a size))

/-- Modelled from the spec: `VMSpace::map_object(object, prot)` (not in the tree).  §4.4, §7: maps
the object at the first-fit address with the size of the object; a failed `map_object`
leaves the space unchanged. -/
def VMSpace.map_object (s : VMSpace) (o : AnonymousVMObject) (prot : VMProt) :
    Except Int (VMRegion × VMSpace) :=
  match s.alloc_space o.size with
  | none => .error ENOMEM
  | some a =>
    let r : VMRegion := { object := o.ident, start := a, size := o.size, prot := prot }
    .ok (r, { s with regions := s.regions ++ [r] })

/-- Modelled from the spec: `VMSpace::map_object(object, at_virt, prot)` (not in the tree).  §4.4:
demands a specific VA; errors if overlapping, and then leaves the space unchanged. -/
def VMSpace.map_object_at (s : VMSpace) (o : AnonymousVMObject) (at_virt : Nat)
    (prot : VMProt) : Except Int (VMRegion × VMSpace) :=
  if s.is_free at_virt o.size then
    let r : VMRegion := { object := o.ident, start := at_virt, size := o.size, prot := prot }
    .ok (r, { s with regions := s.regions ++ [r] })
  else .error EINVAL

/-- Modelled from the spec: `Process::map_object(object, prot)` (Process.cpp is not in the tree).
§3: the process keeps a list of its owned regions as an index into its VM space, so the
region mapped in the space is also recorded in `_vm_regions`. -/
def Process.map_object (p : Process) (o : AnonymousVMObject) (prot : VMProt) :
    Except Int (VMRegion × Process) :=
  match p.vm_space.map_object o prot with
  | .error code => .error code
  | .ok (r, space) => .ok (r, { p with vm_space := space, vm_regions := p.vm_regions ++ [r] })

/-- Modelled from the spec: `Process::map_object(object, address, prot)` (not in the tree), as
`Process.map_object` at a demanded address. -/
def Process.map_object_at (p : Process) (o : AnonymousVMObject) (address : Nat)
    (prot : VMProt) : Except Int (VMRegion × Process) :=
  match p.vm_space.map_object_at o address prot with
  | .error code => .error code
  | .ok (r, space) => .ok (r, { p with vm_space := space, vm_regions := p.vm_regions ++ [r] })

/-! ## The system calls of `mem.cpp` -/

/-- What a memory system call leaves behind: its return value, the kernel state and the
state of the calling process. -/
structure MemResult (ρ : Type) where
  ret : ρ
  k : Kernel
  p : Process

/-- What a shared-memory system call with a `struct shm` out parameter leaves behind. -/
structure ShmResult where
  ret : Int
  k : Kernel
  p : Process
  s : shm

/-- `Process::sys_memacquire(addr, size)`.  `map_object` is called without a protection:
its default argument is taken to be `VMProt::RW`. -/
def sys_memacquire (fail : Bool) (k : Kernel) (p : Process) (addr size : Nat) :
    MemResult Nat :=
  match AnonymousVMObject.alloc fail k size with
  | .error _ => { ret := to_ptr (-ENOMEM), k := k, p := p }
  | .ok (object, k1) =>
    if addr ≠ 0 then
      match p.vm_space.map_object_at object addr VMProt.RW with
      | .error _ => { ret := to_ptr (-EINVAL), k := k1, p := p }
      | .ok (region, space) =>
        { ret := region.start, k := k1,
          p := { p with vm_space := space, vm_regions := p.vm_regions ++ [region],
                        used_pmem := size_add p.used_pmem region.size } }
    else
      match p.vm_space.map_object object VMProt.RW with
      | .error _ => { ret := to_ptr (-ENOMEM), k := k1, p := p }
      | .ok (region, space) =>
        { ret := region.start, k := k1,
          p := { p with vm_space := space, vm_regions := p.vm_regions ++ [region],
                        used_pmem := size_add p.used_pmem region.size } }

/-- The loop of `sys_memrelease` and `sys_shmdetach`: scan the regions from index 0 and, at
the first one satisfying `f`, erase it; gives the erased region and the remaining list. -/
def erase_first (f : VMRegion → Bool) : List VMRegion → Option (VMRegion × List VMRegion)
  | [] => none
  | r :: rest =>
    if f r then some (r, rest)
    else
      match erase_first f rest with
      | none => none
      | some (x, rest1) => some (x, r :: rest1)

/-- `Process::sys_memrelease(addr, size)`.  Only `_vm_regions` and `m_used_pmem` are
written: the destructor in `VMRegion.cpp` touches the space of kernel regions only. -/
def sys_memrelease (p : Process) (addr size : Nat) : Int × Process :=
  match erase_first (fun r => r.start == addr && r.size == size) p.vm_regions with
  | some (r, rest) =>
    (SUCCESS, { p with used_pmem := size_sub p.used_pmem r.size, vm_regions := rest })
  | none => (ENOENT, p)

/-- `Process::sys_shmcreate(addr, size, s)`. -/
def sys_shmcreate (fail : Bool) (k : Kernel) (p : Process) (addr size : Nat) (s : shm) :
    ShmResult :=
  match AnonymousVMObject.alloc fail k size with
  | .error code => { ret := code, k := k, p := p, s := s }
  | .ok (object0, k1) =>
    let (object, k2) := object0.share k1 p.pid VMProt.RW
    let region_res :=
      if addr ≠ 0 then p.map_object_at object addr VMProt.RW else p.map_object object VMProt.RW
    match region_res with
    | .error code => { ret := code, k := k2, p := p, s := s }
    | .ok (region, p1) =>
      { ret := SUCCESS, k := k2,
        p := { p1 with used_shmem := size_add p1.used_shmem region.size },
        s := { ptr := region.start, size := region.size, id := object.shm_id_value } }

/-- `Process::sys_shmattach(id, addr, s)`. -/
def sys_shmattach (k : Kernel) (p : Process) (id : Int) (addr : Nat) (s : shm) : ShmResult :=
  match AnonymousVMObject.get_shared k id with
  | .error code => { ret := code, k := k, p := p, s := s }
  | .ok object =>
    match object.get_shared_permissions p.pid with
    | .error code => { ret := code, k := k, p := p, s := s }
    | .ok perms =>
      if !perms.read then { ret := ENOENT, k := k, p := p, s := s }
      else
        let region_res :=
          if addr ≠ 0 then p.vm_space.map_object_at object addr perms
          else p.vm_space.map_object object perms
        match region_res with
        | .error code => { ret := code, k := k, p := p, s := s }
        | .ok (region, space) =>
          { ret := SUCCESS, k := k,
            p := { p with vm_space := space, vm_regions := p.vm_regions ++ [region],
                          used_shmem := size_add p.used_shmem region.size },
            s := { ptr := region.start, size := region.size, id := object.shm_id_value } }

/-- `Process::sys_shmdetach(id)`. -/
def sys_shmdetach (k : Kernel) (p : Process) (id : Int) : Int × Process :=
  match AnonymousVMObject.get_shared k id with
  | .error code => (code, p)
  | .ok object =>
    match erase_first (fun r => r.object == object.ident) p.vm_regions with
    | some (_, rest) =>
      (SUCCESS, { p with used_shmem := size_sub p.used_shmem object.size, vm_regions := rest })
    | none => (ENOENT, p)

/-- `Process::sys_shmallow(id, pid, perms)`; `perms` is the bit pattern of the `int`
argument.  The calling process `p` is not consulted by the body. -/
def sys_shmallow (k : Kernel) (_p : Process) (id : Int) (pid : Int) (perms : Nat) :
    Int × Kernel :=
  if perms &&& SHM_SHARE ≠ 0 then (-EINVAL, k)
  else if ¬ (perms &&& (SHM_READ ||| SHM_WRITE) ≠ 0) then (-EINVAL, k)
  else if perms &&& SHM_WRITE ≠ 0 ∧ ¬ (perms &&& SHM_READ ≠ 0) then (-EINVAL, k)
  else if process_for_pid_is_error k pid then (-EINVAL, k)
  else
    match AnonymousVMObject.get_shared k id with
    | .error code => (code, k)
    | .ok object =>
      let (_, k1) := object.share k pid
        { read := decide (perms &&& SHM_READ ≠ 0), write := decide (perms &&& SHM_WRITE ≠ 0),
          execute := false, cow := false }
      (SUCCESS, k1)

/-! ## Well-formed states and concrete states -/

/-- Invariants of a process state that every system call of this file preserves: the
`size_t` counters are in range and every region of `_vm_regions` is a region of the
process's VM space. -/
structure Process.well_formed (p : Process) : Prop where
  used_pmem_lt : p.used_pmem < WORD
  used_shmem_lt : p.used_shmem < WORD
  regions_mapped : ∀ r ∈ p.vm_regions, r ∈ p.vm_space.regions

/-- A kernel with an empty registry that knows the pids 1 and 2. -/
def example_kernel : Kernel :=
  { next_ident := 0, s_cur_shm_id := 1, s_shared_objects := [], processes := [1, 2] }

/-- An empty user address space `[0x1000, 0xC0000000)`. -/
def example_space : VMSpace := { start := 4096, size := 3221221376, regions := [] }

/-- Process 1, with nothing mapped. -/
def example_process : Process :=
  { pid := 1, vm_space := example_space, vm_regions := [], used_pmem := 0, used_shmem := 0 }

/-- Process 2, with nothing mapped. -/
def example_peer : Process :=
  { pid := 2, vm_space := example_space, vm_regions := [], used_pmem := 0, used_shmem := 0 }

/-- The result of `shmcreate(0, 4096, s)` called by process 1 on the example kernel: it
publishes a one-page object under id 1. -/
def example_created : ShmResult :=
  sys_shmcreate false example_kernel example_process 0 4096 { ptr := 0, size := 0, id := 0 }

/-- Process 1 with one page of anonymous memory mapped at 0x1000, and the kernel it runs
on. -/
def example_busy : MemResult Nat := sys_memacquire false example_kernel example_process 0 4096

/-- The kernel after process 1 granted process 2 read and write on the object with id 1. -/
def example_granted : Kernel :=
  (sys_shmallow example_created.k example_created.p 1 2 (SHM_READ ||| SHM_WRITE)).2

/-- The result of `shmattach(1, 0, s)` called by process 2 after the grant: the object is
mapped at 0x1000 in process 2. -/
def example_attached : ShmResult :=
  sys_shmattach example_granted example_peer 1 0 { ptr := 0, size := 0, id := 0 }

/-! ## ELF loading (`kernel/tasking/elf.h`, `kernel/tasking/elf.cpp`) -/

def ELF_MAGIC : Nat := 0x464C457F
def ELF32 : Nat := 1
def ELF_LITTLE_ENDIAN : Nat := 1
def ELF_TYPE_EXECUTABLE : Nat := 2
def ELF_X86 : Nat := 3
def ELF_PT_LOAD : Nat := 1
def ELF_PT_INTERP : Nat := 3
def ELF_PF_W : Nat := 2
def EIO : Int := 5

/-- `ELF::elf32_header`, every field as the unsigned number it holds. -/
structure ELF.elf32_header where
  magic : Nat
  bits : Nat
  endianness : Nat
  header_version : Nat
  os_abi : Nat
  padding : List Nat
  type : Nat
  instruction_set : Nat
  elf_version : Nat
  program_entry_position : Nat
  program_header_table_position : Nat
  section_header_table_position : Nat
  flags : Nat
  header_size : Nat
  program_header_table_entry_size : Nat
  program_header_table_entries : Nat
  section_header_table_entry_size : Nat
  section_header_table_entries : Nat
  section_names_index : Nat
  deriving DecidableEq, Repr

/-- `ELF::elf32_segment_header`; every field is a `uint32_t`. -/
structure ELF.elf32_segment_header where
  p_type : Nat
  p_offset : Nat
  p_vaddr : Nat
  p_paddr : Nat
  p_filesz : Nat
  p_memsz : Nat
  p_flags : Nat
  p_align : Nat
  deriving DecidableEq, Repr

/-- `ELF::is_valid_elf_header`. -/
def ELF.is_valid_elf_header (header : ELF.elf32_header) : Bool :=
  header.magic == ELF_MAGIC

/-- `ELF::can_execute`. -/
def ELF.can_execute (header : ELF.elf32_header) : Bool :=
  if !ELF.is_valid_elf_header header then false
  else if header.bits != ELF32 then false
  else if header.instruction_set != ELF_X86 then false
  else if header.elf_version != 1 then false
  else if header.header_version != 1 then false
  else if header.type != ELF_TYPE_EXECUTABLE then false
  else header.endianness == ELF_LITTLE_ENDIAN

/-- A `MemoryRegion` of a memory map: start and size. -/
structure MemoryRegion where
  start : Nat
  size : Nat
  deriving DecidableEq, Repr

/-- What `load_sections` installs for one segment: the region of the program's map, the
offset in that region at which `fd.read` stored the file bytes, the file range read, and
the write flag handed to `map_region`. -/
structure LinkedMemoryRegion where
  virt : MemoryRegion
  read_offset : Nat
  file_offset : Nat
  file_size : Nat
  writable : Bool
  deriving DecidableEq, Repr

/-- A `PageDirectory` as far as `load_sections` uses it: the bounds and regions of its
virtual memory map (`vmem_map()`) and the segments mapped in it. -/
structure PageDirectory where
  vmem_start : Nat
  vmem_size : Nat
  vmem_map : List MemoryRegion
  mapped : List LinkedMemoryRegion
  deriving DecidableEq, Repr

/-- The range `[start, start + size)` lies in the map and overlaps none of its regions. -/
def PageDirectory.is_free (pd : PageDirectory) (start size : Nat) : Bool :=
  decide (pd.vmem_start ≤ start) && decide (start + size ≤ pd.vmem_start + pd.vmem_size) &&
    pd.vmem_map.all (fun r => decide (start + size ≤ r.start) || decide (r.start + r.size ≤ start))

/-- Modelled from the spec: `vmem_map().allocate_region(start, size)` (the memory map is not
in the tree).  §4.7: the segment is mapped with size `ceil(size, PAGE_SIZE)` at the demanded
base; §4.4: a demanded range that overlaps is an error (a null region) and leaves the map
unchanged. -/
def PageDirectory.allocate_region (pd : PageDirectory) (start size : Nat) :
    Option (MemoryRegion × PageDirectory) :=
  if pd.is_free start (page_round_up size) then
    let r : MemoryRegion := { start := start, size := page_round_up size }
    some (r, { pd with vmem_map := pd.vmem_map ++ [r] })
  else none

/-- Modelled from the spec: `PageDirectory::map_region(region, rw)` (not in the tree):
records the linked region as mapped. -/
def PageDirectory.map_region (pd : PageDirectory) (region : LinkedMemoryRegion) :
    PageDirectory :=
  { pd with mapped := pd.mapped ++ [region] }

/-- The loop of `ELF::load_sections` from header `i` on, with the value of `current_brk`.
The kernel-side temporary region (`k_alloc_region`, `k_unmap_region`) leaves no trace in the
target page directory and is not represented; the results of `fd.seek` and `fd.read` are
not looked at by the code. -/
def ELF.load_sections_loop :
    List ELF.elf32_segment_header → Nat → PageDirectory → Except Int Nat × PageDirectory
  | [], current_brk, pd => (.ok current_brk, pd)
  | header :: rest, current_brk, pd =>
    if header.p_type = ELF_PT_LOAD then
      let loadloc_pagealigned := (header.p_vaddr / PAGE_SIZE) * PAGE_SIZE
      let loadsize_pagealigned := (header.p_memsz + (header.p_vaddr % PAGE_SIZE)) % WORD
      match pd.allocate_region loadloc_pagealigned loadsize_pagealigned with
      | none => (.error (-ENOMEM), pd)
      | some (vmem_region, pd1) =>
        let pd2 := pd1.map_region
          { virt := vmem_region, read_offset := header.p_vaddr - loadloc_pagealigned,
            file_offset := header.p_offset, file_size := header.p_filesz,
            writable := decide (header.p_flags &&& ELF_PF_W ≠ 0) }
        if current_brk < (header.p_vaddr + header.p_memsz) % WORD then
          ELF.load_sections_loop rest ((header.p_vaddr + header.p_memsz) % WORD) pd2
        else ELF.load_sections_loop rest current_brk pd2
    else ELF.load_sections_loop rest current_brk pd

/-- `ELF::load_sections(fd, headers, page_directory)`: the program break or an error,
and the page directory as the call leaves it. -/
def ELF.load_sections (headers : List ELF.elf32_segment_header) (pd : PageDirectory) :
    Except Int Nat × PageDirectory :=
  ELF.load_sections_loop headers 0 pd

/-- The region of the program's map that the loop demands for a PT_LOAD header. -/
def ELF.segment_region (header : ELF.elf32_segment_header) : MemoryRegion :=
  { start := (header.p_vaddr / PAGE_SIZE) * PAGE_SIZE,
    size := page_round_up ((header.p_memsz + (header.p_vaddr % PAGE_SIZE)) % WORD) }

/-- An empty page directory whose map spans `[0x1000, 0xC0000000)`. -/
def example_page_directory : PageDirectory :=
  { vmem_start := 4096, vmem_size := 3221221376, vmem_map := [], mapped := [] }

/-- The PT_LOAD header of the specification's ELF scenario:
`{p_offset=0x1000, p_vaddr=0x8048000, p_filesz=0x200, p_memsz=0x1000, p_flags=R|X}`. -/
def example_load_header : ELF.elf32_segment_header :=
  { p_type := 1, p_offset := 0x1000, p_vaddr := 0x8048000, p_paddr := 0, p_filesz := 0x200,
    p_memsz := 0x1000, p_flags := 5, p_align := 0x1000 }

/-- A PT_LOAD header whose `p_memsz + p_vaddr % PAGE_SIZE` does not fit in 32 bits. -/
def example_huge_header : ELF.elf32_segment_header :=
  { p_type := 1, p_offset := 0x1000, p_vaddr := 0x8048002, p_paddr := 0, p_filesz := 0x200,
    p_memsz := 0xFFFFFFFF, p_flags := 5, p_align := 0x1000 }

/-- A PT_LOAD header that overlaps the segment of `example_load_header`. -/
def example_overlapping_header : ELF.elf32_segment_header :=
  { p_type := 1, p_offset := 0x2000, p_vaddr := 0x8048800, p_paddr := 0, p_filesz := 0x200,
    p_memsz := 0x1000, p_flags := 6, p_align := 0x1000 }

/-- The highest end address `p_vaddr + p_memsz` over the PT_LOAD headers, 0 without one. -/
def ELF.highest_address (headers : List ELF.elf32_segment_header) : Nat :=
  ((headers.filter (fun h => h.p_type == ELF_PT_LOAD)).map
    (fun h => h.p_vaddr + h.p_memsz)).foldl max 0

/-- Modelled from the spec: a `FileDescriptor` (FileDescriptor.cpp is not in the tree).
§1: the core requires only "open a path, read bytes from an offset"; §4.7: an IO failure is
EIO.  The file is its bytes; whether `seek` or `read` fails is an input. -/
structure FileDescriptor where
  contents : List Nat
  seek_fails : Bool
  read_fails : Bool
  deriving DecidableEq, Repr

/-- Modelled from the spec: `fd.seek(offset, SEEK_SET)`: the new offset, or a negative
error. -/
def FileDescriptor.seek (fd : FileDescriptor) (offset : Nat) : Int :=
  if fd.seek_fails then - EIO else (offset : Int)

/-- Modelled from the spec: `fd.read(buffer, count)` at the offset a successful `seek` left:
the number of bytes read (fewer than `count` at the end of the file) with those bytes, or a
negative error. -/
def FileDescriptor.read (fd : FileDescriptor) (offset count : Nat) : Int × List Nat :=
  if fd.read_fails then (- EIO, [])
  else (((fd.contents.drop offset).take count).length, (fd.contents.drop offset).take count)

/-- The string a `const char*` denotes: the bytes of memory before the first NUL. -/
def c_string (memory : List Nat) : List Nat := memory.takeWhile (fun b => b != 0)

/-- `ELF::read_interp(fd, headers)`.  `DC::string ret(interp)` reads memory from the start
of the buffer up to the first NUL; `memory_after` is what memory holds behind the bytes
that `read` stored (the rest of the `new char[p_filesz]` buffer, never initialised, and
whatever follows the buffer). -/
def ELF.read_interp (fd : FileDescriptor) (memory_after : List Nat) :
    List ELF.elf32_segment_header → Except Int (List Nat)
  | [] => .error (-ENOENT)
  | header :: rest =>
    if header.p_type = ELF_PT_INTERP then
      if fd.seek header.p_offset < 0 then .error (fd.seek header.p_offset)
      else
        let (res, interp) := fd.read header.p_offset header.p_filesz
        if res ≤ 0 then
          if res < 0 then .error res else .error (- EIO)
        else .ok (c_string (interp ++ memory_after))
    else ELF.read_interp fd memory_after rest

/-- A file holding `"ab"` and a NUL. -/
def example_file : FileDescriptor :=
  { contents := [97, 98, 0], seek_fails := false, read_fails := false }

/-- A PT_INTERP header for the first byte of the file only. -/
def example_interp_short : ELF.elf32_segment_header :=
  { p_type := 3, p_offset := 0, p_vaddr := 0, p_paddr := 0, p_filesz := 1, p_memsz := 1,
    p_flags := 4, p_align := 1 }

/-- A PT_INTERP header for the three bytes of the file. -/
def example_interp : ELF.elf32_segment_header :=
  { p_type := 3, p_offset := 0, p_vaddr := 0, p_paddr := 0, p_filesz := 3, p_memsz := 3,
    p_flags := 4, p_align := 1 }

/-! ## River serialization (`libraries/libriver/serialization_utils.h`) -/

/-- `sizeof(size_t)` in the 32-bit userland. -/
def SIZEOF_SIZE_T : Nat := 4

/-- The types `is_valid_param_type` admits: plain-old data of a given `sizeof`, a
`std::vector` of a value type, `std::string`. -/
inductive River.ParamT where
  | pod (size : Nat)
  | vector (value_type : River.ParamT)
  | string
  deriving DecidableEq, Repr

/-- A value of a parameter type: the object representation of a plain-old datum, the items
of a vector (with its value type), the characters of a string. -/
inductive River.Param where
  | pod (bytes : List Nat)
  | vector (value_type : River.ParamT) (items : List River.Param)
  | string (chars : List Nat)
  deriving Repr

/-- `sizeof(std::vector<T>)` with the userland's 32-bit standard library: three pointers. -/
def SIZEOF_VECTOR : Nat := 12

/-- `sizeof(std::string)` with the userland's 32-bit standard library. -/
def SIZEOF_STRING : Nat := 24

/-- `sizeof(T)`.  For a vector and a string it is the size of the handle object, not of the
contents. -/
def River.ParamT.sizeof : River.ParamT → Nat
  | .pod size => size
  | .vector _ => SIZEOF_VECTOR
  | .string => SIZEOF_STRING

/-- `buffer_size(first, rest...)`.  The string branch returns `first.size() + 1` without
looking at `rest`. -/
def River.buffer_size : List River.Param → Nat
  | [] => 0
  | .vector value_type items :: rest =>
    SIZEOF_SIZE_T + value_type.sizeof * items.length + River.buffer_size rest
  | .string chars :: _ => chars.length + 1
  | .pod bytes :: rest => bytes.length + River.buffer_size rest

/-- The object representation of a `size_t`: four bytes, least significant first. -/
def size_t_bytes (n : Nat) : List Nat :=
  [n % 256, n / 256 % 256, n / 65536 % 256, n / 16777216 % 256]

/-- The `size_t` that four bytes represent. -/
def size_t_value (bytes : List Nat) : Nat :=
  bytes.getD 0 0 + 256 * bytes.getD 1 0 + 65536 * bytes.getD 2 0 + 16777216 * bytes.getD 3 0

/-- A store through the cursor: `memory` is the buffer from the cursor on, and the bytes
replace its beginning. -/
def write_bytes (bytes memory : List Nat) : List Nat := bytes ++ memory.drop bytes.length

mutual
/-- One step of `serialize(buf, first, rest...)` for `first`.  The argument is the buffer
from `buf` on; the result is the content of the bytes the pointer moved over and the buffer
from the new pointer on.  `strcpy` stores the characters up to the first NUL and a NUL, and
the pointer moves by `first.size() + 1`. -/
def River.serialize_one : River.Param → List Nat → List Nat × List Nat
  | .pod bytes, memory =>
    ((write_bytes bytes memory).take bytes.length, (write_bytes bytes memory).drop bytes.length)
  | .string chars, memory =>
    ((write_bytes (c_string chars ++ [0]) memory).take (chars.length + 1),
     (write_bytes (c_string chars ++ [0]) memory).drop (chars.length + 1))
  | .vector _ items, memory =>
    let stored := write_bytes (size_t_bytes items.length) memory
    let (written, rest) := River.serialize (stored.drop SIZEOF_SIZE_T) items
    (stored.take SIZEOF_SIZE_T ++ written, rest)
/-- `serialize(buf, args...)`, also the loop over the items of a vector. -/
def River.serialize : List Nat → List River.Param → List Nat × List Nat
  | memory, [] => ([], memory)
  | memory, first :: rest =>
    let (written, memory1) := River.serialize_one first memory
    let (written_rest, memory2) := River.serialize memory1 rest
    (written ++ written_rest, memory2)
end

/-- Reading `count` items one after the other with `item`, as the loop
`for(VecT& item : first) buf = deserialize(buf, item)` does after `first.resize(count)`. -/
def River.deserialize_items (item : List Nat → Option (River.Param × List Nat)) :
    Nat → List Nat → Option (List River.Param × List Nat)
  | 0, memory => some ([], memory)
  | count + 1, memory =>
    match item memory with
    | none => none
    | some (first, memory1) =>
      match River.deserialize_items item count memory1 with
      | none => none
      | some (rest, memory2) => some (first :: rest, memory2)

/-- One step of `deserialize(buf, first, rest...)` for `first` of the given type.  The
argument is the buffer from `buf` on; the result is the value read and the buffer from the
new pointer on, or `none` when the read runs past the end of the buffer. -/
def River.deserialize_one : River.ParamT → List Nat → Option (River.Param × List Nat)
  | .pod size, memory =>
    if memory.length < size then none
    else some (.pod (memory.take size), memory.drop size)
  | .string, memory =>
    if memory.contains 0 then
      some (.string (c_string memory), memory.drop ((c_string memory).length + 1))
    else none
  | .vector value_type, memory =>
    if memory.length < SIZEOF_SIZE_T then none
    else
      match River.deserialize_items (River.deserialize_one value_type)
          (size_t_value (memory.take SIZEOF_SIZE_T)) (memory.drop SIZEOF_SIZE_T) with
      | none => none
      | some (items, rest) => some (.vector value_type items, rest)

/-- `deserialize(buf, args...)` for arguments of the given types. -/
def River.deserialize : List Nat → List River.ParamT → Option (List River.Param × List Nat)
  | memory, [] => some ([], memory)
  | memory, first :: rest =>
    match River.deserialize_one first memory with
    | none => none
    | some (value, memory1) =>
      match River.deserialize memory1 rest with
      | none => none
      | some (values, memory2) => some (value :: values, memory2)

/-- The static type of a value. -/
def River.Param.type : River.Param → River.ParamT
  | .pod bytes => .pod bytes.length
  | .vector value_type _ => .vector value_type
  | .string _ => .string

mutual
/-- The values for which a round trip can be expected: the strings hold no NUL character,
and every vector has fewer than 2^32 items, all of the vector's value type. -/
def River.Param.well_formed : River.Param → Bool
  | .pod _ => true
  | .string chars => !(chars.contains 0)
  | .vector value_type items =>
    decide (items.length < WORD) && River.Param.items_well_formed value_type items
/-- The items of a vector are well-formed values of its value type. -/
def River.Param.items_well_formed : River.ParamT → List River.Param → Bool
  | _, [] => true
  | value_type, first :: rest =>
    decide (first.type = value_type) && first.well_formed &&
      River.Param.items_well_formed value_type rest
end

/-- The arguments `("a", uint32_t 7)`: a string followed by four bytes of plain data. -/
def example_arguments : List River.Param := [.string [97], .pod [7, 0, 0, 0]]

/-- The argument `std::string("a\0b", 3)`: a string with a NUL character inside. -/
def example_nul_string : List River.Param := [.string [97, 0, 98]]

/-- The arguments `(std::vector<std::string>{"a", ""}, uint16_t 0x0201)`. -/
def example_vector_arguments : List River.Param :=
  [.vector .string [.string [97], .string []], .pod [1, 2]]

/-- Every argument of the list is a well-formed value. -/
def River.well_formed_arguments (args : List River.Param) : Bool :=
  args.all River.Param.well_formed

/-! ## `read_program_headers` (`kernel/tasking/elf.cpp`) -/

/-- `sizeof(elf32_segment_header)`: eight packed `uint32_t`. -/
def SIZEOF_SEGMENT_HEADER : Nat := 32

/-- The segment header that 32 bytes of storage represent: eight little-endian words. -/
def ELF.segment_header_of_bytes (bytes : List Nat) : ELF.elf32_segment_header :=
  { p_type := size_t_value (bytes.take 4),
    p_offset := size_t_value ((bytes.drop 4).take 4),
    p_vaddr := size_t_value ((bytes.drop 8).take 4),
    p_paddr := size_t_value ((bytes.drop 12).take 4),
    p_filesz := size_t_value ((bytes.drop 16).take 4),
    p_memsz := size_t_value ((bytes.drop 20).take 4),
    p_flags := size_t_value ((bytes.drop 24).take 4),
    p_align := size_t_value ((bytes.drop 28).take 4) }

/-- The elements of a vector of `count` segment headers whose storage holds the given
bytes. -/
def ELF.segment_headers_of_storage : Nat → List Nat → List ELF.elf32_segment_header
  | 0, _ => []
  | count + 1, storage =>
    ELF.segment_header_of_bytes (storage.take SIZEOF_SEGMENT_HEADER) ::
      ELF.segment_headers_of_storage count (storage.drop SIZEOF_SEGMENT_HEADER)

/-- The number of bytes `read_program_headers` asks `fd.read` for:
`pheader_size * num_pheaders`, a product of two `uint32_t`. -/
def ELF.program_headers_read_size (header : ELF.elf32_header) : Nat :=
  (header.program_header_table_entry_size * header.program_header_table_entries) % WORD

/-- The size in bytes of the storage of `DC::vector<elf32_segment_header>(num_pheaders)`. -/
def ELF.program_headers_storage_size (header : ELF.elf32_header) : Nat :=
  SIZEOF_SEGMENT_HEADER * header.program_header_table_entries

/-- What `read_program_headers` leaves behind: its result, and the bytes `fd.read` stored
behind the end of the vector's storage. -/
structure ProgramHeadersResult where
  ret : Except Int (List ELF.elf32_segment_header)
  overrun : List Nat

/-- `ELF::read_program_headers(fd, header)`.  `fresh` is what the storage of the newly
created vector holds before the read. -/
def ELF.read_program_headers (fd : FileDescriptor) (fresh : List Nat)
    (header : ELF.elf32_header) : ProgramHeadersResult :=
  let pheader_loc := header.program_header_table_position
  let pheader_size := header.program_header_table_entry_size
  let num_pheaders := header.program_header_table_entries
  if fd.seek pheader_loc < 0 then { ret := .error (fd.seek pheader_loc), overrun := [] }
  else
    let (res, data) := fd.read pheader_loc ((pheader_size * num_pheaders) % WORD)
    if res ≤ 0 then
      if res < 0 then { ret := .error res, overrun := [] }
      else { ret := .error (- EIO), overrun := [] }
    else
      { ret := .ok (ELF.segment_headers_of_storage num_pheaders
          ((write_bytes data fresh).take (SIZEOF_SEGMENT_HEADER * num_pheaders))),
        overrun := data.drop (SIZEOF_SEGMENT_HEADER * num_pheaders) }

/-- A file of 64 bytes: a segment header whose words are all 0x01010101, then 32 bytes
of value 7. -/
def example_elf_file : FileDescriptor :=
  { contents := List.replicate 32 1 ++ List.replicate 32 7, seek_fails := false,
    read_fails := false }

/-- An ELF header that passes `can_execute` and declares one program header of 64 bytes at
offset 0 of the file. -/
def example_wide_header : ELF.elf32_header :=
  { magic := 0x464C457F, bits := 1, endianness := 1, header_version := 1, os_abi := 0,
    padding := [0, 0, 0, 0, 0, 0, 0, 0], type := 2, instruction_set := 3, elf_version := 1,
    program_entry_position := 0x8048000, program_header_table_position := 0,
    section_header_table_position := 0, flags := 0, header_size := 52,
    program_header_table_entry_size := 64, program_header_table_entries := 1,
    section_header_table_entry_size := 40, section_header_table_entries := 0,
    section_names_index := 0 }

/-! ## The system: the kernel and its processes -/

theorem erase_first_eq_none (f : VMRegion → Bool) (l : List VMRegion) :
    erase_first f l = none ↔ ∀ x ∈ l, f x = false := by
  induction l with
  | nil => simp [erase_first]
  | cons r rest ih =>
    by_cases hr : f r = true
    · simp [erase_first, hr]
    · have hr' : f r = false := by simpa using hr
      cases h : erase_first f rest with
      | none =>
        have hall := ih.mp h
        simpa [erase_first, hr', h] using hall
      | some v =>
        have hne : ¬ ∀ x ∈ rest, f x = false := fun hall => by
          rw [ih.mpr hall] at h; cases h
        simp only [erase_first, hr', h, List.mem_cons, forall_eq_or_imp, true_and]
        simp [hne]

theorem erase_first_eq_some (f : VMRegion → Bool) (l : List VMRegion) (r : VMRegion)
    (rest : List VMRegion) (h : erase_first f l = some (r, rest)) :
    ∃ l1 l2, l = l1 ++ r :: l2 ∧ f r = true ∧ (∀ x ∈ l1, f x = false) ∧ rest = l1 ++ l2 := by
  induction l generalizing rest with
  | nil => simp [erase_first] at h
  | cons a tail ih =>
    by_cases ha : f a = true
    · simp only [erase_first, ha, if_true, Option.some.injEq, Prod.mk.injEq] at h
      obtain ⟨rfl, rfl⟩ := h
      exact ⟨[], tail, rfl, ha, by simp, rfl⟩
    · have ha' : f a = false := by simpa using ha
      cases ht : erase_first f tail with
      | none => simp [erase_first, ha', ht] at h
      | some v =>
        obtain ⟨x, rest1⟩ := v
        simp only [erase_first, ha', ht, Option.some.injEq, Prod.mk.injEq] at h
        obtain ⟨rfl, rfl⟩ := h
        obtain ⟨l1, l2, h1, h2, h3, h4⟩ := ih rest1 ht
        refine ⟨a :: l1, l2, by simp [h1], h2, ?_, by simp [h4]⟩
        intro y hy
        rcases List.mem_cons.mp hy with rfl | hy
        · exact ha'
        · exact h3 y hy

/-- C1: `sys_memrelease(addr, size)` succeeds exactly when the region list holds a region
with that start and that size; on success the first such region, and only it, is removed
and the others keep their order; otherwise it returns ENOENT and the process (so its region
list and `used_pmem`) is unchanged. -/
theorem sys_memrelease_exact_match (p : Process) (addr size : Nat) :
    ((sys_memrelease p addr size).1 = SUCCESS ↔
        ∃ r ∈ p.vm_regions, r.start = addr ∧ r.size = size) ∧
    ((sys_memrelease p addr size).1 = SUCCESS →
        ∃ l1 r l2, p.vm_regions = l1 ++ r :: l2 ∧ r.start = addr ∧ r.size = size ∧
          (∀ x ∈ l1, ¬ (x.start = addr ∧ x.size = size)) ∧
          (sys_memrelease p addr size).2.vm_regions = l1 ++ l2) ∧
    ((sys_memrelease p addr size).1 ≠ SUCCESS →
        (sys_memrelease p addr size).1 = ENOENT ∧ (sys_memrelease p addr size).2 = p) := by
  cases h : erase_first (fun r => r.start == addr && r.size == size) p.vm_regions with
  | none =>
    have hall := (erase_first_eq_none _ _).mp h
    have hret : sys_memrelease p addr size = (ENOENT, p) := by simp [sys_memrelease, h]
    rw [hret]
    have hne : ENOENT ≠ SUCCESS := by decide
    refine ⟨⟨fun hs => absurd hs hne, ?_⟩, fun hs => absurd hs hne, fun _ => ⟨rfl, rfl⟩⟩
    rintro ⟨r, hr, h1, h2⟩
    have := hall r hr
    simp [h1, h2] at this
  | some v =>
    obtain ⟨r, rest⟩ := v
    obtain ⟨l1, l2, h1, h2, h3, h4⟩ := erase_first_eq_some _ _ _ _ h
    have hr : r.start = addr ∧ r.size = size := by simpa using h2
    have hret : sys_memrelease p addr size =
        (SUCCESS, { p with used_pmem := size_sub p.used_pmem r.size, vm_regions := rest }) := by
      simp [sys_memrelease, h]
    rw [hret]
    refine ⟨⟨fun _ => ⟨r, by simp [h1], hr.1, hr.2⟩, fun _ => rfl⟩, fun _ => ?_,
      fun hs => absurd rfl hs⟩
    refine ⟨l1, r, l2, h1, hr.1, hr.2, ?_, h4⟩
    intro x hx hxm
    have := h3 x hx
    simp [hxm.1, hxm.2] at this

/-! ## Lemmas on the modelled VM space -/

theorem lowest_mem (l : List Nat) (a : Nat) (h : lowest l = some a) : a ∈ l := by
  induction l generalizing a with
  | nil => simp [lowest] at h
  | cons x rest ih =>
    cases hr : lowest rest with
    | none =>
      simp only [lowest, hr, Option.some.injEq] at h
      simp [h]
    | some b =>
      simp only [lowest, hr, Option.some.injEq] at h
      have hb := ih b hr
      rcases Nat.le_total x b with hxb | hbx
      · rw [Nat.min_eq_left hxb] at h
        simp [h]
      · rw [Nat.min_eq_right hbx] at h
        subst h
        exact List.mem_cons_of_mem _ hb

theorem alloc_space_is_free (s : VMSpace) (size a : Nat) (h : s.alloc_space size = some a) :
    s.is_free a size = true := by
  have hm := lowest_mem _ _ h
  exact (List.mem_filter.mp hm).2

theorem is_free_no_overlap (s : VMSpace) (a size : Nat) (h : s.is_free a size = true)
    (r : VMRegion) (hr : r ∈ s.regions) : a + size ≤ r.start ∨ r.start + r.size ≤ a := by
  simp only [VMSpace.is_free, Bool.and_eq_true, List.all_eq_true, Bool.or_eq_true,
    decide_eq_true_eq] at h
  exact h.2 r hr

theorem erase_first_append_last (f : VMRegion → Bool) (l : List VMRegion) (r : VMRegion)
    (hl : ∀ x ∈ l, f x = false) (hr : f r = true) :
    erase_first f (l ++ [r]) = some (r, l) := by
  induction l with
  | nil => simp [erase_first, hr]
  | cons a tail ih =>
    have ha : f a = false := hl a (List.mem_cons_self _ _)
    have ht := ih (fun x hx => hl x (List.mem_cons_of_mem _ hx))
    simp [erase_first, ha, ht]

theorem page_round_up_pos (n : Nat) (h : 0 < n) : 0 < page_round_up n := by
  simp only [page_round_up, PAGE_SIZE]
  omega

theorem size_sub_size_add (u s : Nat) (hu : u < WORD) : size_sub (size_add u s) s = u := by
  simp only [size_sub, size_add, WORD] at *
  omega

theorem to_ptr_error_is_error (e : Int) (h1 : 0 < e) (h2 : e ≤ 4095) :
    is_error_ptr (to_ptr (-e)) = true := by
  simp only [is_error_ptr, to_ptr, WORD, decide_eq_true_eq]
  omega

/-- What a successful `sys_memacquire(0, size)` leaves behind, in terms of the modelled
address choice. -/
theorem sys_memacquire_zero_addr (fail : Bool) (k : Kernel) (p : Process) (size : Nat) :
    ((sys_memacquire fail k p 0 size).ret = to_ptr (-ENOMEM) ∧
        (sys_memacquire fail k p 0 size).p = p) ∨
    (∃ a, p.vm_space.alloc_space (page_round_up size) = some a ∧
      (sys_memacquire fail k p 0 size).ret = a ∧
      (sys_memacquire fail k p 0 size).p =
        { p with
          vm_space := { p.vm_space with regions := p.vm_space.regions ++
            [{ object := k.next_ident, start := a, size := page_round_up size,
               prot := VMProt.RW }] },
          vm_regions := p.vm_regions ++
            [{ object := k.next_ident, start := a, size := page_round_up size,
               prot := VMProt.RW }],
          used_pmem := size_add p.used_pmem (page_round_up size) }) := by
  cases fail with
  | true => left; simp [sys_memacquire, AnonymousVMObject.alloc]
  | false =>
    cases h : p.vm_space.alloc_space (page_round_up size) with
    | none => left; simp [sys_memacquire, AnonymousVMObject.alloc, VMSpace.map_object, h]
    | some a =>
      right
      exact ⟨a, rfl, by simp [sys_memacquire, AnonymousVMObject.alloc, VMSpace.map_object, h]⟩

/-- C2, as the claim states it, fails: on the empty process `sys_memacquire(0, 1)` succeeds
and returns 0x1000, but `used_pmem` grows by 4096 (not by 1), and the following
`sys_memrelease(0x1000, 1)` returns ENOENT and leaves the region mapped. -/
theorem sys_memacquire_exact_size_counterexample :
    (sys_memacquire false example_kernel example_process 0 1).ret = 4096 ∧
    is_error_ptr (sys_memacquire false example_kernel example_process 0 1).ret = false ∧
    example_process.used_pmem = 0 ∧
    (sys_memacquire false example_kernel example_process 0 1).p.used_pmem = 4096 ∧
    (sys_memrelease (sys_memacquire false example_kernel example_process 0 1).p 4096 1).1
      = ENOENT ∧
    (sys_memrelease (sys_memacquire false example_kernel example_process 0 1).p 4096 1).2.vm_regions
      ≠ example_process.vm_regions := by
  decide

/-- C2, amended: for a well-formed process and a size `N > 0`, whenever
`sys_memacquire(0, N)` succeeds (does not return an error pointer) with `ptr`, `used_pmem`
grows by `N` rounded up to a multiple of the page size (as a `size_t`), and
`sys_memrelease(ptr, page_round_up N)` then succeeds and restores `used_pmem` and the
region list. -/
theorem sys_memacquire_release_round_trip (fail : Bool) (k : Kernel) (p : Process)
    (N : Nat) (hwf : p.well_formed) (hN : 0 < N)
    (hok : is_error_ptr (sys_memacquire fail k p 0 N).ret = false) :
    (sys_memacquire fail k p 0 N).p.used_pmem = size_add p.used_pmem (page_round_up N) ∧
    (sys_memrelease (sys_memacquire fail k p 0 N).p (sys_memacquire fail k p 0 N).ret
        (page_round_up N)).1 = SUCCESS ∧
    (sys_memrelease (sys_memacquire fail k p 0 N).p (sys_memacquire fail k p 0 N).ret
        (page_round_up N)).2.used_pmem = p.used_pmem ∧
    (sys_memrelease (sys_memacquire fail k p 0 N).p (sys_memacquire fail k p 0 N).ret
        (page_round_up N)).2.vm_regions = p.vm_regions := by
  rcases sys_memacquire_zero_addr fail k p N with ⟨hret, _⟩ | ⟨a, ha, hret, hp⟩
  · rw [hret, to_ptr_error_is_error ENOMEM (by decide) (by decide)] at hok
    cases hok
  · have hfree := alloc_space_is_free _ _ _ ha
    have hpos := page_round_up_pos N hN
    have hold : ∀ x ∈ p.vm_regions,
        (fun r : VMRegion => r.start == a && r.size == page_round_up N) x = false := by
      intro x hx
      rcases is_free_no_overlap _ _ _ hfree x (hwf.regions_mapped x hx) with h | h
      · have : x.start ≠ a := by omega
        simp [this]
      · by_cases hs : x.start = a
        · have : x.size ≠ page_round_up N := by omega
          simp [this]
        · simp [hs]
    have herase := erase_first_append_last _ p.vm_regions
      { object := k.next_ident, start := a, size := page_round_up N, prot := VMProt.RW }
      hold (by simp)
    rw [hret, hp]
    simp only [sys_memrelease, herase]
    refine ⟨trivial, trivial, ?_, trivial⟩
    exact size_sub_size_add _ _ hwf.used_pmem_lt

theorem example_process_well_formed : example_process.well_formed :=
  ⟨by decide, by decide, by simp [example_process]⟩

/-- The round trip of C2 at `N = 1` on the empty process. -/
theorem sys_memacquire_release_round_trip_witness :
    example_process.well_formed ∧ 0 < 1 ∧
    is_error_ptr (sys_memacquire false example_kernel example_process 0 1).ret = false ∧
    (sys_memacquire false example_kernel example_process 0 1).p.used_pmem
      = size_add example_process.used_pmem (page_round_up 1) ∧
    (sys_memrelease (sys_memacquire false example_kernel example_process 0 1).p
        (sys_memacquire false example_kernel example_process 0 1).ret (page_round_up 1)).1
      = SUCCESS ∧
    (sys_memrelease (sys_memacquire false example_kernel example_process 0 1).p
        (sys_memacquire false example_kernel example_process 0 1).ret
        (page_round_up 1)).2.used_pmem = example_process.used_pmem ∧
    (sys_memrelease (sys_memacquire false example_kernel example_process 0 1).p
        (sys_memacquire false example_kernel example_process 0 1).ret
        (page_round_up 1)).2.vm_regions = example_process.vm_regions :=
  ⟨example_process_well_formed, by decide, by decide,
    sys_memacquire_release_round_trip false example_kernel example_process 1
      example_process_well_formed (by decide) (by decide)⟩

/-- C3, as the claim states it, fails: `sys_memacquire(0, 0)` on the empty process does not
return `-EINVAL`.  When the allocation succeeds it returns 0x1000 and records a region of
size 0; when the allocation fails it returns `-ENOMEM`. -/
theorem sys_memacquire_zero_size_counterexample :
    (sys_memacquire false example_kernel example_process 0 0).ret = 4096 ∧
    (sys_memacquire false example_kernel example_process 0 0).ret ≠ to_ptr (-EINVAL) ∧
    (sys_memacquire false example_kernel example_process 0 0).p.vm_regions
      = [{ object := 0, start := 4096, size := 0, prot := VMProt.RW }] ∧
    (sys_memacquire true example_kernel example_process 0 0).ret = to_ptr (-ENOMEM) ∧
    to_ptr (-ENOMEM) ≠ to_ptr (-EINVAL) := by
  decide

/-- C3, amended: `sys_memacquire(addr, 0)` has no check of the size; what it returns is
decided by the allocation and by the mapping alone.
* When the allocation fails it returns `-ENOMEM`.
* When the allocation succeeds, `addr ≠ 0` and mapping the object at `addr` fails, it
  returns `-EINVAL`.
* When the allocation succeeds, `addr = 0` and no range can be mapped, it returns `-ENOMEM`.
* In these three cases the process (its region list, its `used_pmem`) is unchanged.
* When the mapping succeeds it returns the start of the mapped region, appends that region
  to the region list and adds its size to `used_pmem`.
A failure with `addr = 0` is therefore never reported as `-EINVAL`. -/
theorem sys_memacquire_zero_size (fail : Bool) (k : Kernel) (p : Process) (addr : Nat) :
    (∀ code, AnonymousVMObject.alloc fail k 0 = .error code →
      (sys_memacquire fail k p addr 0).ret = to_ptr (-ENOMEM) ∧
      (sys_memacquire fail k p addr 0).p = p) ∧
    (∀ object k1 code, AnonymousVMObject.alloc fail k 0 = .ok (object, k1) → addr ≠ 0 →
      p.vm_space.map_object_at object addr VMProt.RW = .error code →
      (sys_memacquire fail k p addr 0).ret = to_ptr (-EINVAL) ∧
      (sys_memacquire fail k p addr 0).p = p) ∧
    (∀ object k1 code, AnonymousVMObject.alloc fail k 0 = .ok (object, k1) → addr = 0 →
      p.vm_space.map_object object VMProt.RW = .error code →
      (sys_memacquire fail k p addr 0).ret = to_ptr (-ENOMEM) ∧
      (sys_memacquire fail k p addr 0).p = p) ∧
    (∀ object k1 region space, AnonymousVMObject.alloc fail k 0 = .ok (object, k1) →
      (addr ≠ 0 ∧ p.vm_space.map_object_at object addr VMProt.RW = .ok (region, space) ∨
        addr = 0 ∧ p.vm_space.map_object object VMProt.RW = .ok (region, space)) →
      (sys_memacquire fail k p addr 0).ret = region.start ∧
      (sys_memacquire fail k p addr 0).p =
        { p with vm_space := space, vm_regions := p.vm_regions ++ [region],
                 used_pmem := size_add p.used_pmem region.size }) ∧
    to_ptr (-ENOMEM) ≠ to_ptr (-EINVAL) := by
  refine ⟨?_, ?_, ?_, ?_, by decide⟩
  · intro code h
    simp [sys_memacquire, h]
  · intro object k1 code h haddr hmap
    simp [sys_memacquire, h, haddr, hmap]
  · intro object k1 code h haddr hmap
    simp [sys_memacquire, h, haddr, hmap]
  · intro object k1 region space h hmap
    rcases hmap with ⟨haddr, hmap⟩ | ⟨haddr, hmap⟩
    · simp [sys_memacquire, h, haddr, hmap]
    · simp [sys_memacquire, h, haddr, hmap]

/-- C3, amended, at concrete calls: the allocation fails for the empty process; the
allocation succeeds and the address 0x1000 is already mapped; the allocation succeeds and
the empty process has a free range. -/
theorem sys_memacquire_zero_size_witness :
    ((sys_memacquire true example_kernel example_process 0 0).ret = to_ptr (-ENOMEM) ∧
      (sys_memacquire true example_kernel example_process 0 0).p = example_process) ∧
    ((sys_memacquire false example_busy.k example_busy.p 4097 0).ret = to_ptr (-EINVAL) ∧
      (sys_memacquire false example_busy.k example_busy.p 4097 0).p = example_busy.p) ∧
    ((sys_memacquire false example_kernel example_process 0 0).ret = 4096 ∧
      (sys_memacquire false example_kernel example_process 0 0).p =
        { example_process with
          vm_space := { example_space with
            regions := [{ object := 0, start := 4096, size := 0, prot := VMProt.RW }] },
          vm_regions := example_process.vm_regions ++
            [{ object := 0, start := 4096, size := 0, prot := VMProt.RW }],
          used_pmem := size_add example_process.used_pmem 0 }) :=
  ⟨(sys_memacquire_zero_size true example_kernel example_process 0).1 ENOMEM rfl,
    (sys_memacquire_zero_size false example_busy.k example_busy.p 4097).2.1
      { ident := 1, size := 0, shm_id := none, shared_permissions := [] }
      { example_busy.k with next_ident := 2 } EINVAL rfl (by decide) rfl,
    (sys_memacquire_zero_size false example_kernel example_process 0).2.2.2.1
      { ident := 0, size := 0, shm_id := none, shared_permissions := [] }
      { example_kernel with next_ident := 1 }
      { object := 0, start := 4096, size := 0, prot := VMProt.RW }
      { example_space with
        regions := [{ object := 0, start := 4096, size := 0, prot := VMProt.RW }] }
      rfl (Or.inr ⟨rfl, rfl⟩)⟩

/-! ## `sys_shmallow` -/

theorem and_write_of_and_read_or_write (perms : Nat)
    (h3 : perms &&& (SHM_READ ||| SHM_WRITE) ≠ 0) (h1 : perms &&& SHM_READ = 0) :
    perms &&& SHM_WRITE ≠ 0 := by
  intro h2
  apply h3
  rw [Nat.and_or_distrib_left, h1, h2]
  rfl

/-- C4: when the permissions word has the SHARE bit set or the READ bit clear,
`sys_shmallow(id, pid, perms)` returns `-EINVAL` and leaves the kernel state (the registry
and every permission map in it) unchanged, whatever `id` and `pid` are. -/
theorem sys_shmallow_rejects_bad_perms (k : Kernel) (p : Process) (id pid : Int) (perms : Nat)
    (h : perms &&& SHM_SHARE ≠ 0 ∨ perms &&& SHM_READ = 0) :
    sys_shmallow k p id pid perms = (-EINVAL, k) := by
  by_cases hs : perms &&& SHM_SHARE ≠ 0
  · simp [sys_shmallow, hs]
  · have hr : perms &&& SHM_READ = 0 := h.resolve_left hs
    by_cases h3 : perms &&& (SHM_READ ||| SHM_WRITE) ≠ 0
    · have hw := and_write_of_and_read_or_write perms h3 hr
      unfold sys_shmallow
      rw [if_neg hs, if_neg (not_not.mpr h3), if_pos ⟨hw, by simp [hr]⟩]
    · unfold sys_shmallow
      rw [if_neg hs, if_pos h3]

/-- C4 at WRITE without READ (`perms = 2`), for an id and a pid that do not matter. -/
theorem sys_shmallow_rejects_bad_perms_witness :
    (2 &&& SHM_SHARE ≠ 0 ∨ 2 &&& SHM_READ = 0) ∧
    sys_shmallow example_kernel example_process 1 2 2 = (-EINVAL, example_kernel) :=
  ⟨by decide, sys_shmallow_rejects_bad_perms example_kernel example_process 1 2 2 (by decide)⟩

/-! ## Lemmas on the modelled registry -/

theorem lookup_set_permissions_self (perms : List (Int × VMProt)) (pid : Int) (prot : VMProt) :
    (set_permissions perms pid prot).lookup pid = some prot := by
  simp [set_permissions, List.lookup]

theorem lookup_filter_ne (perms : List (Int × VMProt)) (pid q : Int) (h : q ≠ pid) :
    (perms.filter (fun e => e.1 != pid)).lookup q = perms.lookup q := by
  induction perms with
  | nil => rfl
  | cons e rest ih =>
    obtain ⟨a, b⟩ := e
    by_cases ha : a = pid
    · subst ha
      have hq : (q == a) = false := by simpa using h
      simp [List.filter, List.lookup, hq, ih]
    · have hne : (a != pid) = true := by simpa using ha
      simp only [List.filter, hne, List.lookup]
      rw [ih]

theorem lookup_set_permissions_ne (perms : List (Int × VMProt)) (pid q : Int) (prot : VMProt)
    (h : q ≠ pid) : (set_permissions perms pid prot).lookup q = perms.lookup q := by
  have hq : (q == pid) = false := by simpa using h
  simp only [set_permissions, List.lookup, hq]
  exact lookup_filter_ne perms pid q h

theorem get_shared_ok (k : Kernel) (id : Int) (o : AnonymousVMObject)
    (h : AnonymousVMObject.get_shared k id = .ok o) :
    k.s_shared_objects.find? (fun x => x.shm_id == some id) = some o ∧ o.shm_id = some id := by
  unfold AnonymousVMObject.get_shared at h
  cases hf : k.s_shared_objects.find? (fun x => x.shm_id == some id) with
  | none => rw [hf] at h; cases h
  | some x =>
    rw [hf] at h
    have hx : x = o := by injection h
    subst hx
    have := List.find?_some hf
    exact ⟨rfl, by simpa using this⟩

theorem find_after_update (l : List AnonymousVMObject) (id : Int) (o o1 : AnonymousVMObject)
    (hf : l.find? (fun x => x.shm_id == some id) = some o) (h1 : o1.shm_id = some id) :
    (l.map (fun x => if x.ident = o.ident then o1 else x)).find? (fun x => x.shm_id == some id)
      = some o1 := by
  induction l with
  | nil => simp at hf
  | cons a rest ih =>
    by_cases ha : a.ident = o.ident
    · simp [List.find?, ha, h1]
    · by_cases hp : a.shm_id = some id
      · have : a = o := by simpa [List.find?, hp] using hf
        exact absurd (by rw [this]) ha
      · have hb : (a.shm_id == some id) = false := by simpa using hp
        have hrest : rest.find? (fun x => x.shm_id == some id) = some o := by
          simpa [List.find?, hb] using hf
        simp [List.find?, ha, hb, ih hrest]

/-- What `sys_shmallow` does once its checks pass and the id is registered. -/
theorem sys_shmallow_share (k : Kernel) (p : Process) (id pid : Int) (perms : Nat)
    (o : AnonymousVMObject) (hr : perms &&& SHM_READ ≠ 0) (hs : perms &&& SHM_SHARE = 0)
    (hpid : pid ∈ k.processes) (hid : AnonymousVMObject.get_shared k id = .ok o) :
    sys_shmallow k p id pid perms =
      (SUCCESS, { k with s_shared_objects := k.s_shared_objects.map (fun x =>
        if x.ident = o.ident then
          { o with shared_permissions := (set_permissions o.shared_permissions pid
              ({ read := true, write := decide (perms &&& SHM_WRITE ≠ 0), execute := false,
                 cow := false } : VMProt)) }
        else x) }) := by
  have hso := (get_shared_ok k id o hid).2
  have h3 : perms &&& (SHM_READ ||| SHM_WRITE) ≠ 0 := by
    intro h
    have h' : perms &&& (SHM_READ ||| SHM_WRITE) &&& SHM_READ = perms &&& SHM_READ := by
      rw [Nat.and_assoc]; rfl
    rw [h, Nat.zero_and] at h'
    exact hr h'.symm
  have hpe : process_for_pid_is_error k pid = false := by
    simp [process_for_pid_is_error, hpid]
  unfold sys_shmallow
  rw [if_neg (not_not.mpr hs), if_neg (not_not.mpr h3), if_neg (fun h => h.2 hr)]
  simp [hpe, hid, AnonymousVMObject.share, hso, hr]

/-- The body of `sys_shmallow` never consults the calling process. -/
theorem sys_shmallow_ignores_caller (k : Kernel) (p q : Process) (id pid : Int) (perms : Nat) :
    sys_shmallow k p id pid perms = sys_shmallow k q id pid perms := rfl

/-- C5, evaluated on the code: process 2 did not create the object with id 1 (process 1
did, and process 2 has no permission on it), yet its `sys_shmallow(1, 2, READ)` returns
SUCCESS and grants process 2 read access, after which its `sys_shmattach(1, 0, s)`
succeeds. -/
theorem sys_shmallow_non_creator_grants :
    example_created.ret = SUCCESS ∧ example_created.s.id = 1 ∧
    example_peer.pid ≠ example_process.pid ∧
    (sys_shmattach example_created.k example_peer 1 0 { ptr := 0, size := 0, id := 0 }).ret
      = ENOENT ∧
    (sys_shmallow example_created.k example_peer 1 2 SHM_READ).1 = SUCCESS ∧
    (sys_shmallow example_created.k example_peer 1 2 SHM_READ).2 ≠ example_created.k ∧
    (sys_shmattach (sys_shmallow example_created.k example_peer 1 2 SHM_READ).2 example_peer
        1 0 { ptr := 0, size := 0, id := 0 }).ret = SUCCESS := by
  decide

/-- C6: for a permissions word with READ set and SHARE clear, a pid the task manager knows
and a registered id, `sys_shmallow` returns SUCCESS; afterwards the id names the same
object (same identity and size), on which the target pid holds exactly
`{read, write = WRITE bit, no execute, no cow}` and every other pid holds what it held. -/
theorem sys_shmallow_grants (k : Kernel) (p : Process) (id pid : Int) (perms : Nat)
    (o : AnonymousVMObject) (hr : perms &&& SHM_READ ≠ 0) (hs : perms &&& SHM_SHARE = 0)
    (hpid : pid ∈ k.processes) (hid : AnonymousVMObject.get_shared k id = .ok o) :
    (sys_shmallow k p id pid perms).1 = SUCCESS ∧
    ∃ o1, AnonymousVMObject.get_shared (sys_shmallow k p id pid perms).2 id = .ok o1 ∧
      o1.ident = o.ident ∧ o1.size = o.size ∧
      o1.get_shared_permissions pid = .ok
        { read := true, write := decide (perms &&& SHM_WRITE ≠ 0), execute := false,
          cow := false } ∧
      ∀ q, q ≠ pid → o1.get_shared_permissions q = o.get_shared_permissions q := by
  obtain ⟨hf, hso⟩ := get_shared_ok k id o hid
  rw [sys_shmallow_share k p id pid perms o hr hs hpid hid]
  refine ⟨rfl, { o with shared_permissions := (set_permissions o.shared_permissions pid
    ({ read := true, write := decide (perms &&& SHM_WRITE ≠ 0), execute := false,
       cow := false } : VMProt)) }, ?_, rfl, rfl, ?_, ?_⟩
  · have hfind := find_after_update k.s_shared_objects id o
      { o with shared_permissions := (set_permissions o.shared_permissions pid
        ({ read := true, write := decide (perms &&& SHM_WRITE ≠ 0), execute := false,
           cow := false } : VMProt)) } hf hso
    simp only [AnonymousVMObject.get_shared]
    rw [hfind]
  · simp only [AnonymousVMObject.get_shared_permissions, lookup_set_permissions_self]
  · intro q hq
    simp only [AnonymousVMObject.get_shared_permissions, lookup_set_permissions_ne _ _ _ _ hq]

/-- C6 at `perms = READ|WRITE`: process 1 grants process 2 access to the object with id 1. -/
theorem sys_shmallow_grants_witness :
    (3 &&& SHM_READ ≠ 0) ∧ (3 &&& SHM_SHARE = 0) ∧ (2 : Int) ∈ example_created.k.processes ∧
    (sys_shmallow example_created.k example_created.p 1 2 3).1 = SUCCESS ∧
    ∃ o1, AnonymousVMObject.get_shared
        (sys_shmallow example_created.k example_created.p 1 2 3).2 1 = .ok o1 ∧
      o1.ident = 0 ∧ o1.size = 4096 ∧
      o1.get_shared_permissions 2 = .ok
        { read := true, write := decide (3 &&& SHM_WRITE ≠ 0), execute := false,
          cow := false } ∧
      ∀ q, q ≠ 2 → o1.get_shared_permissions q =
        AnonymousVMObject.get_shared_permissions
          { ident := 0, size := 4096, shm_id := some 1,
            shared_permissions := [(1, VMProt.RW)] } q :=
  ⟨by decide, by decide, by decide,
    sys_shmallow_grants example_created.k example_created.p 1 2 3
      { ident := 0, size := 4096, shm_id := some 1, shared_permissions := [(1, VMProt.RW)] }
      (by decide) (by decide) (by decide) rfl⟩

/-! ## `sys_shmattach` -/

theorem get_shared_error (k : Kernel) (id : Int) (code : Int)
    (h : AnonymousVMObject.get_shared k id = .error code) : code = ENOENT := by
  unfold AnonymousVMObject.get_shared at h
  cases hf : k.s_shared_objects.find? (fun x => x.shm_id == some id) with
  | none => rw [hf] at h; injection h with h; exact h.symm
  | some x => rw [hf] at h; cases h

theorem get_shared_absent (k : Kernel) (id : Int)
    (h : ∀ o ∈ k.s_shared_objects, o.shm_id ≠ some id) :
    AnonymousVMObject.get_shared k id = .error ENOENT := by
  have hf : k.s_shared_objects.find? (fun x => x.shm_id == some id) = none := by
    rw [List.find?_eq_none]
    intro x hx
    simpa using h x hx
  simp [AnonymousVMObject.get_shared, hf]

theorem get_shared_permissions_error (o : AnonymousVMObject) (pid : Int) (code : Int)
    (h : o.get_shared_permissions pid = .error code) : code = ENOENT := by
  unfold AnonymousVMObject.get_shared_permissions at h
  cases hf : o.shared_permissions.lookup pid with
  | none => rw [hf] at h; injection h with h; exact h.symm
  | some x => rw [hf] at h; cases h

/-- C7: when the caller was never granted the id (the id names no object, or the object
has no entry for the caller's pid, or the entry does not grant read), `sys_shmattach`
returns ENOENT, leaves the process, the kernel and the out struct unchanged, and this is
the value it returns for every id that is absent from the registry. -/
theorem sys_shmattach_not_granted (k : Kernel) (p : Process) (id : Int) (addr : Nat) (s : shm)
    (h : ∀ o prot, AnonymousVMObject.get_shared k id = .ok o →
      o.get_shared_permissions p.pid = .ok prot → prot.read = false) :
    (sys_shmattach k p id addr s).ret = ENOENT ∧
    (sys_shmattach k p id addr s).p = p ∧
    (sys_shmattach k p id addr s).s = s ∧
    (sys_shmattach k p id addr s).k = k ∧
    ∀ absent : Int, (∀ o ∈ k.s_shared_objects, o.shm_id ≠ some absent) →
      (sys_shmattach k p absent addr s).ret = (sys_shmattach k p id addr s).ret := by
  have hmain : (sys_shmattach k p id addr s).ret = ENOENT ∧
      (sys_shmattach k p id addr s).p = p ∧ (sys_shmattach k p id addr s).s = s ∧
      (sys_shmattach k p id addr s).k = k := by
    cases hg : AnonymousVMObject.get_shared k id with
    | error code =>
      have := get_shared_error k id code hg
      simp [sys_shmattach, hg, this]
    | ok o =>
      cases hp : o.get_shared_permissions p.pid with
      | error code =>
        have := get_shared_permissions_error o p.pid code hp
        simp [sys_shmattach, hg, hp, this]
      | ok prot =>
        have hread := h o prot hg hp
        simp [sys_shmattach, hg, hp, hread]
  refine ⟨hmain.1, hmain.2.1, hmain.2.2.1, hmain.2.2.2, ?_⟩
  intro absent habs
  rw [hmain.1]
  simp [sys_shmattach, get_shared_absent k absent habs]

/-- C7 for process 2 and the object with id 1, which process 1 created and shared with
nobody. -/
theorem sys_shmattach_not_granted_witness :
    (sys_shmattach example_created.k example_peer 1 0 { ptr := 0, size := 0, id := 0 }).ret
      = ENOENT ∧
    (sys_shmattach example_created.k example_peer 1 0 { ptr := 0, size := 0, id := 0 }).p
      = example_peer ∧
    (sys_shmattach example_created.k example_peer 1 0 { ptr := 0, size := 0, id := 0 }).s
      = { ptr := 0, size := 0, id := 0 } ∧
    (sys_shmattach example_created.k example_peer 1 0 { ptr := 0, size := 0, id := 0 }).k
      = example_created.k ∧
    ∀ absent : Int, (∀ o ∈ example_created.k.s_shared_objects, o.shm_id ≠ some absent) →
      (sys_shmattach example_created.k example_peer absent 0
          { ptr := 0, size := 0, id := 0 }).ret =
        (sys_shmattach example_created.k example_peer 1 0
          { ptr := 0, size := 0, id := 0 }).ret :=
  sys_shmattach_not_granted example_created.k example_peer 1 0 { ptr := 0, size := 0, id := 0 }
    (fun o prot h1 h2 => by
      have hk : AnonymousVMObject.get_shared example_created.k 1 = .ok
          { ident := 0, size := 4096, shm_id := some 1,
            shared_permissions := [(1, VMProt.RW)] } := rfl
      rw [hk] at h1
      injection h1 with h1
      subst h1
      have hp : AnonymousVMObject.get_shared_permissions
          { ident := 0, size := 4096, shm_id := some 1,
            shared_permissions := [(1, VMProt.RW)] } example_peer.pid = .error ENOENT := rfl
      rw [hp] at h2
      cases h2)

/-! ## `sys_shmcreate` -/

/-- The three ways `sys_shmcreate` ends: the allocation fails; the object is published
but mapping it fails; or the object is published, mapped and accounted. -/
theorem sys_shmcreate_cases (fail : Bool) (k : Kernel) (p : Process) (addr size : Nat)
    (s : shm) :
    (sys_shmcreate fail k p addr size s = { ret := ENOMEM, k := k, p := p, s := s }) ∨
    (∃ code : Int, (code = ENOMEM ∨ code = EINVAL) ∧
      sys_shmcreate fail k p addr size s =
        { ret := code,
          k := { next_ident := k.next_ident + 1, s_cur_shm_id := k.s_cur_shm_id + 1,
                 s_shared_objects :=
                   { ident := k.next_ident, size := page_round_up size,
                     shm_id := some k.s_cur_shm_id,
                     shared_permissions := [(p.pid, VMProt.RW)] } :: k.s_shared_objects,
                 processes := k.processes },
          p := p, s := s }) ∨
    (∃ a : Nat, (addr ≠ 0 → a = addr) ∧
      (addr = 0 → p.vm_space.alloc_space (page_round_up size) = some a) ∧
      p.vm_space.is_free a (page_round_up size) = true ∧
      sys_shmcreate fail k p addr size s =
        { ret := SUCCESS,
          k := { next_ident := k.next_ident + 1, s_cur_shm_id := k.s_cur_shm_id + 1,
                 s_shared_objects :=
                   { ident := k.next_ident, size := page_round_up size,
                     shm_id := some k.s_cur_shm_id,
                     shared_permissions := [(p.pid, VMProt.RW)] } :: k.s_shared_objects,
                 processes := k.processes },
          p := { pid := p.pid,
                 vm_space := { p.vm_space with regions := p.vm_space.regions ++
                   [{ object := k.next_ident, start := a, size := page_round_up size,
                      prot := VMProt.RW }] },
                 vm_regions := p.vm_regions ++
                   [{ object := k.next_ident, start := a, size := page_round_up size,
                      prot := VMProt.RW }],
                 used_pmem := p.used_pmem,
                 used_shmem := size_add p.used_shmem (page_round_up size) },
          s := { ptr := a, size := page_round_up size, id := k.s_cur_shm_id } }) := by
  cases fail with
  | true => left; simp [sys_shmcreate, AnonymousVMObject.alloc]
  | false =>
    right
    by_cases haddr : addr = 0
    · subst haddr
      cases ha : p.vm_space.alloc_space (page_round_up size) with
      | none =>
        left
        exact ⟨ENOMEM, Or.inl rfl, by
          simp [sys_shmcreate, AnonymousVMObject.alloc, AnonymousVMObject.share,
            set_permissions, Process.map_object, VMSpace.map_object, ha]⟩
      | some a =>
        right
        exact ⟨a, fun h => absurd rfl h, fun _ => rfl, alloc_space_is_free _ _ _ ha, by
          simp [sys_shmcreate, AnonymousVMObject.alloc, AnonymousVMObject.share,
            set_permissions, Process.map_object, VMSpace.map_object, ha,
            AnonymousVMObject.shm_id_value]⟩
    · by_cases hfree : p.vm_space.is_free addr (page_round_up size) = true
      · right
        exact ⟨addr, fun _ => rfl, fun h => absurd h haddr, hfree, by
          simp [sys_shmcreate, AnonymousVMObject.alloc, AnonymousVMObject.share,
            set_permissions, Process.map_object_at, VMSpace.map_object_at, haddr, hfree,
            AnonymousVMObject.shm_id_value]⟩
      · left
        exact ⟨EINVAL, Or.inr rfl, by
          simp [sys_shmcreate, AnonymousVMObject.alloc, AnonymousVMObject.share,
            set_permissions, Process.map_object_at, VMSpace.map_object_at, haddr, hfree]⟩

theorem enomem_ne_success : ENOMEM ≠ SUCCESS := by decide

theorem einval_ne_success : EINVAL ≠ SUCCESS := by decide

/-- C9: a successful `sys_shmcreate(addr, size, s)` publishes a newly allocated object
under a fresh id on which the calling pid holds `VMProt::RW` (the call has no permissions
argument); it maps that object read-write in the caller's space and region list, at `addr`
when `addr ≠ 0` and at the first-fit address when `addr = 0`; and it writes
`s = {ptr = start of the region, size = size of the region, id = id of the object}`. -/
theorem sys_shmcreate_success (fail : Bool) (k : Kernel) (p : Process) (addr size : Nat)
    (s : shm) (h : (sys_shmcreate fail k p addr size s).ret = SUCCESS) :
    ∃ (o : AnonymousVMObject) (region : VMRegion),
      o.ident = k.next_ident ∧ o.shm_id = some k.s_cur_shm_id ∧
      AnonymousVMObject.get_shared (sys_shmcreate fail k p addr size s).k k.s_cur_shm_id
        = .ok o ∧
      o.get_shared_permissions p.pid = .ok VMProt.RW ∧
      region.object = o.ident ∧ region.size = o.size ∧ region.prot = VMProt.RW ∧
      (addr ≠ 0 → region.start = addr) ∧
      (addr = 0 → p.vm_space.alloc_space o.size = some region.start) ∧
      p.vm_space.is_free region.start region.size = true ∧
      (sys_shmcreate fail k p addr size s).p.vm_space.regions
        = p.vm_space.regions ++ [region] ∧
      (sys_shmcreate fail k p addr size s).p.vm_regions = p.vm_regions ++ [region] ∧
      (sys_shmcreate fail k p addr size s).p.used_shmem = size_add p.used_shmem region.size ∧
      (sys_shmcreate fail k p addr size s).s
        = { ptr := region.start, size := region.size, id := k.s_cur_shm_id } := by
  rcases sys_shmcreate_cases fail k p addr size s with hc | ⟨code, hcode, hc⟩ |
    ⟨a, h1, h2, h3, hc⟩
  · rw [hc] at h; exact absurd h enomem_ne_success
  · rw [hc] at h
    rcases hcode with rfl | rfl
    · exact absurd h enomem_ne_success
    · exact absurd h einval_ne_success
  · rw [hc]
    refine ⟨{ ident := k.next_ident, size := page_round_up size,
              shm_id := some k.s_cur_shm_id, shared_permissions := [(p.pid, VMProt.RW)] },
      { object := k.next_ident, start := a, size := page_round_up size, prot := VMProt.RW },
      rfl, rfl, ?_, ?_, rfl, rfl, rfl, h1, h2, h3, rfl, rfl, rfl, rfl⟩
    · simp [AnonymousVMObject.get_shared]
    · simp [AnonymousVMObject.get_shared_permissions, List.lookup]

/-- C9 for `shmcreate(0, 4096, s)` called by process 1. -/
theorem sys_shmcreate_success_witness :
    example_created.ret = SUCCESS ∧
    ∃ (o : AnonymousVMObject) (region : VMRegion),
      o.ident = example_kernel.next_ident ∧ o.shm_id = some example_kernel.s_cur_shm_id ∧
      AnonymousVMObject.get_shared example_created.k example_kernel.s_cur_shm_id = .ok o ∧
      o.get_shared_permissions example_process.pid = .ok VMProt.RW ∧
      region.object = o.ident ∧ region.size = o.size ∧ region.prot = VMProt.RW ∧
      ((0 : Nat) ≠ 0 → region.start = 0) ∧
      ((0 : Nat) = 0 → example_process.vm_space.alloc_space o.size = some region.start) ∧
      example_process.vm_space.is_free region.start region.size = true ∧
      example_created.p.vm_space.regions = example_process.vm_space.regions ++ [region] ∧
      example_created.p.vm_regions = example_process.vm_regions ++ [region] ∧
      example_created.p.used_shmem = size_add example_process.used_shmem region.size ∧
      example_created.s
        = { ptr := region.start, size := region.size, id := example_kernel.s_cur_shm_id } :=
  ⟨by decide,
    sys_shmcreate_success false example_kernel example_process 0 4096
      { ptr := 0, size := 0, id := 0 } (by decide)⟩

/-! ## The shared-memory handshake -/

/-- C8: after A's `sys_shmcreate(0, N, sA)` succeeded with id `I` and A's
`sys_shmallow(I, pid_B, READ|WRITE)` succeeded, B's `sys_shmattach(I, 0, sB)` with a free
range of the object's size in B's space succeeds: it maps the object A mapped, with
exactly read and write, appends the region to B's region list and space, adds its size to
B's `used_shmem` and writes `{ptr = start of B's region, size = the size A was told,
id = I}`.  (B's pid need not differ from A's for this.) -/
theorem shm_handshake (fail : Bool) (k : Kernel) (A B : Process) (N : Nat) (sA sB : shm)
    (hcreate : (sys_shmcreate fail k A 0 N sA).ret = SUCCESS)
    (hallow : (sys_shmallow (sys_shmcreate fail k A 0 N sA).k (sys_shmcreate fail k A 0 N sA).p
      (sys_shmcreate fail k A 0 N sA).s.id B.pid (SHM_READ ||| SHM_WRITE)).1 = SUCCESS)
    (hspace : (B.vm_space.alloc_space (sys_shmcreate fail k A 0 N sA).s.size).isSome = true) :
    ∃ rA rB : VMRegion,
      (sys_shmcreate fail k A 0 N sA).p.vm_regions = A.vm_regions ++ [rA] ∧
      (sys_shmattach
        (sys_shmallow (sys_shmcreate fail k A 0 N sA).k (sys_shmcreate fail k A 0 N sA).p
          (sys_shmcreate fail k A 0 N sA).s.id B.pid (SHM_READ ||| SHM_WRITE)).2
        B (sys_shmcreate fail k A 0 N sA).s.id 0 sB).ret = SUCCESS ∧
      (sys_shmattach
        (sys_shmallow (sys_shmcreate fail k A 0 N sA).k (sys_shmcreate fail k A 0 N sA).p
          (sys_shmcreate fail k A 0 N sA).s.id B.pid (SHM_READ ||| SHM_WRITE)).2
        B (sys_shmcreate fail k A 0 N sA).s.id 0 sB).p.vm_regions = B.vm_regions ++ [rB] ∧
      (sys_shmattach
        (sys_shmallow (sys_shmcreate fail k A 0 N sA).k (sys_shmcreate fail k A 0 N sA).p
          (sys_shmcreate fail k A 0 N sA).s.id B.pid (SHM_READ ||| SHM_WRITE)).2
        B (sys_shmcreate fail k A 0 N sA).s.id 0 sB).p.vm_space.regions
          = B.vm_space.regions ++ [rB] ∧
      rB.object = rA.object ∧
      rB.prot = { read := true, write := true, execute := false, cow := false } ∧
      (sys_shmattach
        (sys_shmallow (sys_shmcreate fail k A 0 N sA).k (sys_shmcreate fail k A 0 N sA).p
          (sys_shmcreate fail k A 0 N sA).s.id B.pid (SHM_READ ||| SHM_WRITE)).2
        B (sys_shmcreate fail k A 0 N sA).s.id 0 sB).p.used_shmem
          = size_add B.used_shmem rB.size ∧
      (sys_shmattach
        (sys_shmallow (sys_shmcreate fail k A 0 N sA).k (sys_shmcreate fail k A 0 N sA).p
          (sys_shmcreate fail k A 0 N sA).s.id B.pid (SHM_READ ||| SHM_WRITE)).2
        B (sys_shmcreate fail k A 0 N sA).s.id 0 sB).s
          = { ptr := rB.start, size := (sys_shmcreate fail k A 0 N sA).s.size,
              id := (sys_shmcreate fail k A 0 N sA).s.id } := by
  rcases sys_shmcreate_cases fail k A 0 N sA with hc | ⟨code, hcode, hc⟩ | ⟨a, _, _, _, hc⟩
  · rw [hc] at hcreate; exact absurd hcreate enomem_ne_success
  · rw [hc] at hcreate
    rcases hcode with rfl | rfl
    · exact absurd hcreate enomem_ne_success
    · exact absurd hcreate einval_ne_success
  · rw [hc] at hallow hspace ⊢
    simp only at hallow hspace ⊢
    have hpid : B.pid ∈ k.processes := by
      by_contra hn
      have hpe : process_for_pid_is_error
          { next_ident := k.next_ident + 1, s_cur_shm_id := k.s_cur_shm_id + 1,
            s_shared_objects :=
              { ident := k.next_ident, size := page_round_up N,
                shm_id := some k.s_cur_shm_id,
                shared_permissions := [(A.pid, VMProt.RW)] } :: k.s_shared_objects,
            processes := k.processes } B.pid = true := by
        simp [process_for_pid_is_error, hn]
      have h22 : (-EINVAL : Int) ≠ SUCCESS := by decide
      apply h22
      rw [← hallow]
      have hr1 : (SHM_READ ||| SHM_WRITE) &&& SHM_SHARE = 0 := by decide
      have hr2 : (SHM_READ ||| SHM_WRITE) &&& (SHM_READ ||| SHM_WRITE) ≠ 0 := by decide
      have hr3 : (SHM_READ ||| SHM_WRITE) &&& SHM_READ ≠ 0 := by decide
      unfold sys_shmallow
      rw [if_neg (not_not.mpr hr1), if_neg (not_not.mpr hr2), if_neg (fun h => h.2 hr3),
        if_pos hpe]
    have hshare := sys_shmallow_share
      { next_ident := k.next_ident + 1, s_cur_shm_id := k.s_cur_shm_id + 1,
        s_shared_objects :=
          { ident := k.next_ident, size := page_round_up N, shm_id := some k.s_cur_shm_id,
            shared_permissions := [(A.pid, VMProt.RW)] } :: k.s_shared_objects,
        processes := k.processes }
      { pid := A.pid,
        vm_space := { A.vm_space with regions := A.vm_space.regions ++
          [{ object := k.next_ident, start := a, size := page_round_up N,
             prot := VMProt.RW }] },
        vm_regions := A.vm_regions ++
          [{ object := k.next_ident, start := a, size := page_round_up N,
             prot := VMProt.RW }],
        used_pmem := A.used_pmem,
        used_shmem := size_add A.used_shmem (page_round_up N) }
      k.s_cur_shm_id B.pid (SHM_READ ||| SHM_WRITE)
      { ident := k.next_ident, size := page_round_up N, shm_id := some k.s_cur_shm_id,
        shared_permissions := [(A.pid, VMProt.RW)] }
      (by decide) (by decide) hpid (by simp [AnonymousVMObject.get_shared])
    rw [hshare]
    obtain ⟨b, hb⟩ := Option.isSome_iff_exists.mp hspace
    have hw : decide ((SHM_READ ||| SHM_WRITE) &&& SHM_WRITE ≠ 0) = true := by decide
    refine ⟨{ object := k.next_ident, start := a, size := page_round_up N,
              prot := VMProt.RW },
      { object := k.next_ident, start := b, size := page_round_up N,
        prot := { read := true, write := true, execute := false, cow := false } },
      rfl, ?_, ?_, ?_, rfl, rfl, ?_, ?_⟩ <;>
      simp [sys_shmattach, AnonymousVMObject.get_shared,
        AnonymousVMObject.get_shared_permissions, set_permissions, List.lookup,
        VMSpace.map_object, hb, hw, AnonymousVMObject.shm_id_value]

/-- C8 for processes 1 and 2 and one page. -/
theorem shm_handshake_witness :
    ∃ rA rB : VMRegion,
      example_created.p.vm_regions = example_process.vm_regions ++ [rA] ∧
      (sys_shmattach
        (sys_shmallow example_created.k example_created.p example_created.s.id
          example_peer.pid (SHM_READ ||| SHM_WRITE)).2
        example_peer example_created.s.id 0 { ptr := 0, size := 0, id := 0 }).ret = SUCCESS ∧
      (sys_shmattach
        (sys_shmallow example_created.k example_created.p example_created.s.id
          example_peer.pid (SHM_READ ||| SHM_WRITE)).2
        example_peer example_created.s.id 0 { ptr := 0, size := 0, id := 0 }).p.vm_regions
          = example_peer.vm_regions ++ [rB] ∧
      (sys_shmattach
        (sys_shmallow example_created.k example_created.p example_created.s.id
          example_peer.pid (SHM_READ ||| SHM_WRITE)).2
        example_peer example_created.s.id 0
          { ptr := 0, size := 0, id := 0 }).p.vm_space.regions
          = example_peer.vm_space.regions ++ [rB] ∧
      rB.object = rA.object ∧
      rB.prot = { read := true, write := true, execute := false, cow := false } ∧
      (sys_shmattach
        (sys_shmallow example_created.k example_created.p example_created.s.id
          example_peer.pid (SHM_READ ||| SHM_WRITE)).2
        example_peer example_created.s.id 0 { ptr := 0, size := 0, id := 0 }).p.used_shmem
          = size_add example_peer.used_shmem rB.size ∧
      (sys_shmattach
        (sys_shmallow example_created.k example_created.p example_created.s.id
          example_peer.pid (SHM_READ ||| SHM_WRITE)).2
        example_peer example_created.s.id 0 { ptr := 0, size := 0, id := 0 }).s
          = { ptr := rB.start, size := example_created.s.size, id := example_created.s.id } :=
  shm_handshake false example_kernel example_process example_peer 4096
    { ptr := 0, size := 0, id := 0 } { ptr := 0, size := 0, id := 0 }
    (by decide) (by decide) (by decide)

/-! ## `sys_shmdetach` and the conventions of the integer-returning calls -/

/-- C12, evaluated on the code: `sys_memrelease(0x1000, 4096)` on a process with no region
fails (nothing is unmapped) and returns `ENOENT = 2`, a positive value, not `-ENOENT`; so
does `sys_shmdetach(1)` for a process that has no mapping of the registered object 1. -/
theorem sys_memrelease_failure_is_positive :
    sys_memrelease example_process 4096 4096 = (ENOENT, example_process) ∧
    (0 : Int) < ENOENT ∧ ENOENT ≠ -ENOENT ∧
    sys_shmdetach example_created.k example_peer 1 = (ENOENT, example_peer) := by
  decide

/-- C20, evaluated on the code: process 2 starts with no region and both counters 0; after
`sys_shmattach(1, 0, s)` it has the shared region `[0x1000, 0x2000)` and `used_shmem = 4096`.
`sys_memrelease(0x1000, 4096)` then returns SUCCESS, removes that shared-memory region and
subtracts its size from `used_pmem`, which wraps from 0 to `2^32 - 4096`, while `used_shmem`
stays 4096 with no region left. -/
theorem sys_memrelease_removes_shared_region :
    example_peer.vm_regions = [] ∧ example_peer.used_pmem = 0 ∧ example_peer.used_shmem = 0 ∧
    example_attached.ret = SUCCESS ∧
    example_attached.p.vm_regions
      = [{ object := 0, start := 4096, size := 4096,
           prot := { read := true, write := true, execute := false, cow := false } }] ∧
    example_attached.p.used_pmem = 0 ∧ example_attached.p.used_shmem = 4096 ∧
    (sys_memrelease example_attached.p 4096 4096).1 = SUCCESS ∧
    (sys_memrelease example_attached.p 4096 4096).2.vm_regions = [] ∧
    (sys_memrelease example_attached.p 4096 4096).2.used_pmem = 4294963200 ∧
    (sys_memrelease example_attached.p 4096 4096).2.used_shmem = 4096 := by
  decide

/-! ## ELF loading -/

/-- C13: `can_execute(h)` holds exactly when `h.magic` is 0x464C457F (the bytes 0x7F 'E'
'L' 'F' read as a little-endian word), `bits = 1`, `endianness = 1`, `instruction_set = 3`, `type = 2`,
`header_version = 1` and `elf_version = 1`; two headers that agree on these seven fields get
the same answer, whatever their other fields hold. -/
theorem can_execute_iff (h : ELF.elf32_header) :
    ELF_MAGIC = 0x7F + 256 * 0x45 + 65536 * 0x4C + 16777216 * 0x46 ∧
    (ELF.can_execute h = true ↔
      h.magic = 0x464C457F ∧ h.bits = 1 ∧ h.endianness = 1 ∧ h.instruction_set = 3 ∧
        h.type = 2 ∧ h.header_version = 1 ∧ h.elf_version = 1) ∧
    ∀ g : ELF.elf32_header,
      g.magic = h.magic → g.bits = h.bits → g.endianness = h.endianness →
      g.instruction_set = h.instruction_set → g.type = h.type →
      g.header_version = h.header_version → g.elf_version = h.elf_version →
      ELF.can_execute g = ELF.can_execute h := by
  refine ⟨by decide, ?_, ?_⟩
  · simp only [ELF.can_execute, ELF.is_valid_elf_header, ELF_MAGIC, ELF32, ELF_X86,
      ELF_TYPE_EXECUTABLE, ELF_LITTLE_ENDIAN]
    by_cases h1 : h.magic = 0x464C457F <;> by_cases h2 : h.bits = 1 <;>
      by_cases h3 : h.instruction_set = 3 <;> by_cases h4 : h.elf_version = 1 <;>
      by_cases h5 : h.header_version = 1 <;> by_cases h6 : h.type = 2 <;>
      simp [h1, h2, h3, h4, h5, h6]
  · intro g e1 e2 e3 e4 e5 e6 e7
    simp only [ELF.can_execute, ELF.is_valid_elf_header, e1, e2, e3, e4, e5, e6, e7]

theorem allocate_region_some (pd pd1 : PageDirectory) (start size : Nat) (r : MemoryRegion)
    (h : pd.allocate_region start size = some (r, pd1)) :
    r = { start := start, size := page_round_up size } ∧
    pd1 = { pd with vmem_map := pd.vmem_map ++ [r] } := by
  unfold PageDirectory.allocate_region at h
  by_cases hf : pd.is_free start (page_round_up size) = true
  · simp only [hf, if_true, Option.some.injEq, Prod.mk.injEq] at h
    obtain ⟨h1, h2⟩ := h
    subst h1
    exact ⟨rfl, h2.symm⟩
  · simp [hf] at h

theorem allocate_region_none (pd : PageDirectory) (start size : Nat)
    (h : pd.allocate_region start size = none) :
    pd.is_free start (page_round_up size) = false := by
  unfold PageDirectory.allocate_region at h
  by_cases hf : pd.is_free start (page_round_up size) = true
  · simp [hf] at h
  · simpa using hf

/-- The loop of `load_sections` on an error: the error is `-ENOMEM`, raised at a PT_LOAD
header whose range is not free, and the map holds its former regions followed by the
regions of the PT_LOAD headers before that one. -/
theorem load_sections_loop_error (headers : List ELF.elf32_segment_header) (brk : Nat)
    (pd pd1 : PageDirectory) (e : Int)
    (h : ELF.load_sections_loop headers brk pd = (.error e, pd1)) :
    e = -ENOMEM ∧ ∃ pre failing post, headers = pre ++ failing :: post ∧
      failing.p_type = ELF_PT_LOAD ∧
      pd1.vmem_map = pd.vmem_map ++
        (pre.filter (fun x => x.p_type == ELF_PT_LOAD)).map ELF.segment_region ∧
      pd1.is_free (ELF.segment_region failing).start (ELF.segment_region failing).size
        = false := by
  induction headers generalizing brk pd with
  | nil => simp [ELF.load_sections_loop] at h
  | cons header rest ih =>
    by_cases hl : header.p_type = ELF_PT_LOAD
    · cases ha : pd.allocate_region ((header.p_vaddr / PAGE_SIZE) * PAGE_SIZE)
          ((header.p_memsz + (header.p_vaddr % PAGE_SIZE)) % WORD) with
      | none =>
        simp only [ELF.load_sections_loop, hl, if_true, ha, Prod.mk.injEq,
          Except.error.injEq] at h
        obtain ⟨h1, h2⟩ := h
        subst h2
        refine ⟨h1.symm, [], header, rest, rfl, hl, by simp, ?_⟩
        exact allocate_region_none _ _ _ ha
      | some v =>
        obtain ⟨r, pd2⟩ := v
        obtain ⟨hr, hpd2⟩ := allocate_region_some _ _ _ _ _ ha
        have hloop : ∃ b, ELF.load_sections_loop rest b
            (pd2.map_region
              { virt := r,
                read_offset := header.p_vaddr - (header.p_vaddr / PAGE_SIZE) * PAGE_SIZE,
                file_offset := header.p_offset, file_size := header.p_filesz,
                writable := decide (header.p_flags &&& ELF_PF_W ≠ 0) }) = (.error e, pd1) := by
          simp only [ELF.load_sections_loop, hl, if_true, ha] at h
          by_cases hb : brk < (header.p_vaddr + header.p_memsz) % WORD
          · exact ⟨_, by simpa [hb] using h⟩
          · exact ⟨_, by simpa [hb] using h⟩
        obtain ⟨b, hb⟩ := hloop
        obtain ⟨he, pre, failing, post, h1, h2, h3, h4⟩ := ih b _ hb
        refine ⟨he, header :: pre, failing, post, by simp [h1], h2, ?_, h4⟩
        have hbeq : (header.p_type == ELF_PT_LOAD) = true := by simpa using hl
        rw [h3]
        simp only [PageDirectory.map_region, hpd2, List.filter_cons, hbeq, if_true,
          List.map_cons, List.append_assoc, List.singleton_append]
        rw [hr]
        rfl
    · have hloop : ELF.load_sections_loop rest brk pd = (.error e, pd1) := by
        simpa [ELF.load_sections_loop, hl] using h
      obtain ⟨he, pre, failing, post, h1, h2, h3, h4⟩ := ih brk pd hloop
      have hbeq : (header.p_type == ELF_PT_LOAD) = false := by simpa using hl
      exact ⟨he, header :: pre, failing, post, by simp [h1], h2,
        by simp [h3, List.filter_cons, hbeq], h4⟩

/-- C16, as the claim states it, fails: with the two overlapping PT_LOAD segments, the
second cannot be allocated, `load_sections` returns `-ENOMEM`, and the map that was empty
before the call holds the region of the first segment. -/
theorem load_sections_error_counterexample :
    (ELF.load_sections [example_load_header, example_overlapping_header]
      example_page_directory).1 = .error (-ENOMEM) ∧
    example_page_directory.vmem_map = [] ∧
    (ELF.load_sections [example_load_header, example_overlapping_header]
      example_page_directory).2.vmem_map = [{ start := 0x8048000, size := 4096 }] :=
  ⟨rfl, rfl, by decide⟩

/-- C16, amended: when `load_sections` returns an error, the error is `-ENOMEM`, it was
raised at a PT_LOAD header whose range is not free, and the target map holds every region it
held before the call followed by the regions of the PT_LOAD headers that precede the failing
one: nothing is rolled back. -/
theorem load_sections_error_keeps_earlier_segments (headers : List ELF.elf32_segment_header)
    (pd pd1 : PageDirectory) (e : Int)
    (h : ELF.load_sections headers pd = (.error e, pd1)) :
    e = -ENOMEM ∧ ∃ pre failing post, headers = pre ++ failing :: post ∧
      failing.p_type = ELF_PT_LOAD ∧
      pd1.vmem_map = pd.vmem_map ++
        (pre.filter (fun x => x.p_type == ELF_PT_LOAD)).map ELF.segment_region ∧
      pd1.is_free (ELF.segment_region failing).start (ELF.segment_region failing).size
        = false :=
  load_sections_loop_error headers 0 pd pd1 e h

/-- C16, amended, at the two overlapping PT_LOAD segments. -/
theorem load_sections_error_keeps_earlier_segments_witness :
    (-ENOMEM : Int) = -ENOMEM ∧ ∃ pre failing post,
      [example_load_header, example_overlapping_header] = pre ++ failing :: post ∧
      failing.p_type = ELF_PT_LOAD ∧
      (ELF.load_sections [example_load_header, example_overlapping_header]
        example_page_directory).2.vmem_map = example_page_directory.vmem_map ++
          (pre.filter (fun x => x.p_type == ELF_PT_LOAD)).map ELF.segment_region ∧
      (ELF.load_sections [example_load_header, example_overlapping_header]
        example_page_directory).2.is_free (ELF.segment_region failing).start
          (ELF.segment_region failing).size = false :=
  load_sections_error_keeps_earlier_segments
    [example_load_header, example_overlapping_header] example_page_directory
    (ELF.load_sections [example_load_header, example_overlapping_header]
      example_page_directory).2 (-ENOMEM) rfl

/-- The break the loop of `load_sections` returns when no PT_LOAD header has an end address
beyond 32 bits: the running maximum of the end addresses. -/
theorem load_sections_loop_break (headers : List ELF.elf32_segment_header) (brk b : Nat)
    (pd pd1 : PageDirectory) (h : ELF.load_sections_loop headers brk pd = (.ok b, pd1))
    (hno : ∀ x ∈ headers, x.p_type = ELF_PT_LOAD → x.p_vaddr + x.p_memsz < WORD) :
    b = ((headers.filter (fun x => x.p_type == ELF_PT_LOAD)).map
      (fun x => x.p_vaddr + x.p_memsz)).foldl max brk := by
  induction headers generalizing brk pd with
  | nil =>
    simp only [ELF.load_sections_loop, Prod.mk.injEq, Except.ok.injEq] at h
    simp [h.1]
  | cons header rest ih =>
    have hrest : ∀ x ∈ rest, x.p_type = ELF_PT_LOAD → x.p_vaddr + x.p_memsz < WORD :=
      fun x hx => hno x (List.mem_cons_of_mem _ hx)
    by_cases hl : header.p_type = ELF_PT_LOAD
    · have hbeq : (header.p_type == ELF_PT_LOAD) = true := by simpa using hl
      have hlt := hno header (List.mem_cons_self _ _) hl
      have hmod : (header.p_vaddr + header.p_memsz) % WORD = header.p_vaddr + header.p_memsz :=
        Nat.mod_eq_of_lt hlt
      cases ha : pd.allocate_region ((header.p_vaddr / PAGE_SIZE) * PAGE_SIZE)
          ((header.p_memsz + (header.p_vaddr % PAGE_SIZE)) % WORD) with
      | none => simp [ELF.load_sections_loop, hl, ha] at h
      | some v =>
        obtain ⟨r, pd2⟩ := v
        simp only [ELF.load_sections_loop, hl, if_true, ha, hmod] at h
        simp only [List.filter_cons, hbeq, if_true, List.map_cons, List.foldl_cons]
        by_cases hb : brk < header.p_vaddr + header.p_memsz
        · rw [if_pos hb] at h
          rw [Nat.max_eq_right (Nat.le_of_lt hb)]
          exact ih _ _ h hrest
        · rw [if_neg hb] at h
          rw [Nat.max_eq_left (Nat.le_of_not_lt hb)]
          exact ih _ _ h hrest
    · have hbeq : (header.p_type == ELF_PT_LOAD) = false := by simpa using hl
      have hloop : ELF.load_sections_loop rest brk pd = (.ok b, pd1) := by
        simpa [ELF.load_sections_loop, hl] using h
      simp only [List.filter_cons, hbeq]
      exact ih _ _ hloop hrest

/-- When no PT_LOAD header ends beyond 32 bits, a successful `load_sections` returns the
highest end address of the PT_LOAD headers. -/
theorem load_sections_break (headers : List ELF.elf32_segment_header) (b : Nat)
    (pd pd1 : PageDirectory) (h : ELF.load_sections headers pd = (.ok b, pd1))
    (hno : ∀ x ∈ headers, x.p_type = ELF_PT_LOAD → x.p_vaddr + x.p_memsz < WORD) :
    b = ELF.highest_address headers :=
  load_sections_loop_break headers 0 b pd pd1 h hno

/-- The highest end address does not depend on the order of the headers. -/
theorem highest_address_perm (l1 l2 : List ELF.elf32_segment_header) (h : l1.Perm l2) :
    ELF.highest_address l1 = ELF.highest_address l2 := by
  unfold ELF.highest_address
  have hp := (h.filter (fun x => x.p_type == ELF_PT_LOAD)).map (fun x => x.p_vaddr + x.p_memsz)
  have hcomm : ∀ (l l' : List Nat), l.Perm l' → ∀ a, l.foldl max a = l'.foldl max a := by
    intro l l' hperm
    induction hperm with
    | nil => intro a; rfl
    | cons x _ ih => intro a; simp [ih]
    | swap x y l =>
      intro a
      simp only [List.foldl_cons]
      congr 1
      omega
    | trans _ _ ih1 ih2 => intro a; rw [ih1, ih2]
  exact hcomm _ _ hp 0

/-- The specification's ELF scenario: one PT_LOAD segment at 0x8048000 of 0x1000 bytes
gives the break 0x8049000. -/
theorem load_sections_scenario :
    (ELF.load_sections [example_load_header] example_page_directory).1 = .ok 0x8049000 :=
  rfl

/-- For a PT_LOAD header whose `p_memsz + p_vaddr % PAGE_SIZE` fits in 32 bits, the region
the loop demands starts at `p_vaddr` rounded down to a page, has that sum rounded up to a
page as its size and contains `[p_vaddr, p_vaddr + p_memsz)`; the file bytes go to offset
`p_vaddr % PAGE_SIZE`. -/
theorem segment_region_covers (header : ELF.elf32_segment_header)
    (hfit : header.p_memsz + header.p_vaddr % PAGE_SIZE < WORD) :
    (ELF.segment_region header).start = header.p_vaddr - header.p_vaddr % PAGE_SIZE ∧
    (ELF.segment_region header).size
      = page_round_up (header.p_memsz + header.p_vaddr % PAGE_SIZE) ∧
    (ELF.segment_region header).start ≤ header.p_vaddr ∧
    header.p_vaddr + header.p_memsz
      ≤ (ELF.segment_region header).start + (ELF.segment_region header).size ∧
    header.p_vaddr - (ELF.segment_region header).start = header.p_vaddr % PAGE_SIZE := by
  simp only [ELF.segment_region, page_round_up, PAGE_SIZE, WORD] at *
  refine ⟨?_, ?_, ?_, ?_, ?_⟩
  · omega
  · rw [Nat.mod_eq_of_lt hfit]
  · omega
  · omega
  · omega

/-- C14, evaluated on the code: for the single PT_LOAD header with `p_vaddr = 0x8048002`
and `p_memsz = 0xFFFFFFFF`, `load_sections` succeeds, having mapped the one page
`[0x8048000, 0x8049000)`, and returns the break 0x8048001, the end address
`p_vaddr + p_memsz = 0x108048001` cut to 32 bits: neither the highest end address of the
headers nor the highest address mapped. -/
theorem load_sections_break_wraps :
    (ELF.load_sections [example_huge_header] example_page_directory).1 = .ok 0x8048001 ∧
    ELF.highest_address [example_huge_header] = 0x108048001 ∧
    (ELF.load_sections [example_huge_header] example_page_directory).2.vmem_map
      = [{ start := 0x8048000, size := 4096 }] :=
  ⟨rfl, by decide, by decide⟩

/-- C15, evaluated on the code: for the PT_LOAD header with `p_vaddr = 0x8048002` and
`p_memsz = 0xFFFFFFFF`, the size `p_memsz + p_vaddr % PAGE_SIZE` is computed in 32 bits
and wraps to 1, so the region mapped is the one page `[0x8048000, 0x8049000)`: its size is
not that sum rounded up to a page (0x100001000), and the address `p_vaddr + 0x1000` of the
segment lies outside it. -/
theorem load_sections_size_wraps :
    (ELF.load_sections [example_huge_header] example_page_directory).2.mapped
      = [{ virt := { start := 0x8048000, size := 0x1000 }, read_offset := 2,
           file_offset := 0x1000, file_size := 0x200, writable := false }] ∧
    page_round_up (example_huge_header.p_memsz + example_huge_header.p_vaddr % PAGE_SIZE)
      = 0x100001000 ∧
    example_huge_header.p_vaddr ≤ example_huge_header.p_vaddr + 0x1000 ∧
    example_huge_header.p_vaddr + 0x1000
      < example_huge_header.p_vaddr + example_huge_header.p_memsz ∧
    ¬ (example_huge_header.p_vaddr + 0x1000 < 0x8048000 + 0x1000) := by
  decide

/-! ## `read_interp` -/

theorem c_string_append (data rest : List Nat) (h : 0 ∈ data) :
    c_string (data ++ rest) = c_string data := by
  induction data with
  | nil => simp at h
  | cons b tail ih =>
    by_cases hb : b = 0
    · simp [c_string, List.takeWhile, hb]
    · have hmem : 0 ∈ tail := by
        rcases List.mem_cons.mp h with h0 | h0
        · exact absurd h0.symm hb
        · exact h0
      have hne : (b != 0) = true := by simpa using hb
      have := ih hmem
      simp only [c_string] at this ⊢
      simp only [List.cons_append, List.takeWhile_cons, hne, if_true, this]

theorem read_interp_skip (fd : FileDescriptor) (after : List Nat)
    (pre rest : List ELF.elf32_segment_header)
    (h : ∀ x ∈ pre, x.p_type ≠ ELF_PT_INTERP) :
    ELF.read_interp fd after (pre ++ rest) = ELF.read_interp fd after rest := by
  induction pre with
  | nil => rfl
  | cons a tail ih =>
    have ha := h a (List.mem_cons_self _ _)
    simp only [List.cons_append, ELF.read_interp, ha, if_false]
    exact ih (fun x hx => h x (List.mem_cons_of_mem _ hx))

/-- C17, as the claim states it, fails: the file is `"ab\0"` and the first PT_INTERP header
has `p_offset = 0`, `p_filesz = 1`.  The file bytes from `p_offset` up to the first NUL are
`"ab"`, but seek and read succeed and `read_interp` returns `"a"` when a NUL follows the
byte read in memory, and `"ac"` when `'c'` and a NUL follow it. -/
theorem read_interp_counterexample :
    c_string (example_file.contents.drop example_interp_short.p_offset) = [97, 98] ∧
    ELF.read_interp example_file [0] [example_interp_short] = .ok [97] ∧
    ELF.read_interp example_file [99, 0] [example_interp_short] = .ok [97, 99] :=
  ⟨by decide, rfl, rfl⟩

/-- C17, amended: `read_interp` returns `-ENOENT` when no header is PT_INTERP; otherwise it
uses the first PT_INTERP header and, when seek and read succeed and the (at most
`p_filesz`) bytes read at `p_offset` contain a NUL, returns the bytes read up to, and not
including, their first NUL, whatever memory holds behind them. -/
theorem read_interp_first_segment (fd : FileDescriptor) (after : List Nat)
    (headers : List ELF.elf32_segment_header) :
    ((∀ x ∈ headers, x.p_type ≠ ELF_PT_INTERP) →
      ELF.read_interp fd after headers = .error (-ENOENT)) ∧
    (∀ pre header post, headers = pre ++ header :: post →
      (∀ x ∈ pre, x.p_type ≠ ELF_PT_INTERP) → header.p_type = ELF_PT_INTERP →
      fd.seek_fails = false → fd.read_fails = false →
      0 ∈ (fd.contents.drop header.p_offset).take header.p_filesz →
      ELF.read_interp fd after headers
        = .ok (c_string ((fd.contents.drop header.p_offset).take header.p_filesz))) := by
  constructor
  · intro h
    have := read_interp_skip fd after headers [] h
    rw [List.append_nil] at this
    rw [this]
    rfl
  · intro pre header post hh hpre hty hseek hread hnul
    rw [hh, read_interp_skip fd after pre _ hpre]
    have hlen : 0 < ((fd.contents.drop header.p_offset).take header.p_filesz).length :=
      List.length_pos_of_mem hnul
    have hs : ¬ ((header.p_offset : Int) < 0) := by omega
    have hr : ¬ ((((fd.contents.drop header.p_offset).take header.p_filesz).length : Int) ≤ 0) := by
      omega
    simp only [ELF.read_interp, hty, if_true, FileDescriptor.seek, hseek, FileDescriptor.read,
      hread, Bool.false_eq_true, if_false, hs, hr]
    rw [c_string_append _ _ hnul]

/-- The amended C17 on the file `"ab\0"` with a PT_INTERP header for its three bytes: the
result is `"ab"` although `'c'` and a NUL follow the buffer in memory. -/
theorem read_interp_first_segment_witness :
    ELF.read_interp example_file [99, 0] [example_interp] = .ok [97, 98] :=
  (read_interp_first_segment example_file [99, 0] [example_interp]).2 [] example_interp []
    rfl (by simp) rfl rfl rfl (by decide)

/-! ## River serialization -/

/-- C18, evaluated on the code: for the arguments `("a", uint32_t 7)`, `buffer_size` is 2
(the string branch returns `first.size() + 1` and drops the rest), while `serialize` moves
the pointer by 6 bytes and stores `'a', 0, 7, 0, 0, 0`: four bytes past a buffer of
`buffer_size` bytes. -/
theorem buffer_size_ignores_arguments_after_string :
    River.buffer_size example_arguments = 2 ∧
    (River.serialize [0, 0] example_arguments).1 = [97, 0, 7, 0, 0, 0] ∧
    (River.serialize [0, 0] example_arguments).1.length = 6 := by
  decide

theorem take_write_bytes (bytes memory : List Nat) :
    (write_bytes bytes memory).take bytes.length = bytes := by
  simp [write_bytes]

theorem drop_write_bytes (bytes memory : List Nat) :
    (write_bytes bytes memory).drop bytes.length = memory.drop bytes.length := by
  simp [write_bytes]

theorem c_string_of_no_nul (chars : List Nat) (h : chars.contains 0 = false) :
    c_string chars = chars := by
  induction chars with
  | nil => rfl
  | cons b tail ih =>
    simp only [List.contains_cons, Bool.or_eq_false_iff] at h
    have hb : (b != 0) = true := by
      have h1 := h.1
      simp only [beq_eq_false_iff_ne, ne_eq] at h1
      simpa using fun hb0 : b = 0 => h1 hb0.symm
    simp only [c_string, List.takeWhile_cons, hb, if_true]
    exact congrArg _ (ih h.2)

theorem c_string_terminated (chars tail : List Nat) (h : chars.contains 0 = false) :
    c_string (chars ++ 0 :: tail) = chars := by
  induction chars with
  | nil => simp [c_string]
  | cons b rest ih =>
    simp only [List.contains_cons, Bool.or_eq_false_iff] at h
    have hb : (b != 0) = true := by
      have h1 := h.1
      simp only [beq_eq_false_iff_ne, ne_eq] at h1
      simpa using fun hb0 : b = 0 => h1 hb0.symm
    simp only [c_string, List.cons_append, List.takeWhile_cons, hb, if_true]
    exact congrArg _ (ih h.2)

theorem size_t_value_bytes (n : Nat) (h : n < WORD) : size_t_value (size_t_bytes n) = n := by
  simp only [size_t_value, size_t_bytes, List.getD_cons_zero, List.getD_cons_succ, WORD] at *
  omega

theorem serialize_one_pod (bytes memory : List Nat) :
    River.serialize_one (.pod bytes) memory = (bytes, memory.drop bytes.length) := by
  simp only [River.serialize_one, take_write_bytes, drop_write_bytes]

theorem serialize_one_string (chars memory : List Nat) (h : chars.contains 0 = false) :
    River.serialize_one (.string chars) memory
      = (chars ++ [0], memory.drop (chars ++ [0]).length) := by
  have hlen : chars.length + 1 = (chars ++ [0]).length := by simp
  simp only [River.serialize_one, c_string_of_no_nul chars h]
  rw [hlen, take_write_bytes, drop_write_bytes]

theorem serialize_one_vector (value_type : River.ParamT) (items : List River.Param)
    (memory : List Nat) :
    River.serialize_one (.vector value_type items) memory
      = (size_t_bytes items.length ++ (River.serialize (memory.drop SIZEOF_SIZE_T) items).1,
         (River.serialize (memory.drop SIZEOF_SIZE_T) items).2) := by
  have hlen : SIZEOF_SIZE_T = (size_t_bytes items.length).length := rfl
  simp only [River.serialize_one]
  rw [hlen, take_write_bytes, drop_write_bytes]

theorem serialize_cons (first : River.Param) (rest : List River.Param) (memory : List Nat) :
    River.serialize memory (first :: rest)
      = ((River.serialize_one first memory).1 ++
          (River.serialize (River.serialize_one first memory).2 rest).1,
         (River.serialize (River.serialize_one first memory).2 rest).2) := by
  simp only [River.serialize]

mutual
/-- Round trip of one well-formed value: `serialize` moves the pointer over exactly the
bytes it lists, and `deserialize` reads the value back from them and stops behind them. -/
theorem serialize_one_round_trip : ∀ (p : River.Param) (memory tail : List Nat),
    p.well_formed = true →
    (River.serialize_one p memory).2 = memory.drop (River.serialize_one p memory).1.length ∧
    River.deserialize_one p.type ((River.serialize_one p memory).1 ++ tail) = some (p, tail)
  | .pod bytes, memory, tail, _ => by
    rw [serialize_one_pod]
    refine ⟨rfl, ?_⟩
    simp [River.Param.type, River.deserialize_one]
  | .string chars, memory, tail, h => by
    have hc : chars.contains 0 = false := by
      simpa [River.Param.well_formed] using h
    rw [serialize_one_string chars memory hc]
    refine ⟨rfl, ?_⟩
    have hmem : ((chars ++ [0]) ++ tail).contains 0 = true := by simp
    have hcs : c_string ((chars ++ [0]) ++ tail) = chars := by
      rw [List.append_assoc]
      exact c_string_terminated chars tail hc
    simp only [River.Param.type, River.deserialize_one, hmem, if_true, hcs]
    simp
  | .vector value_type items, memory, tail, h => by
    simp only [River.Param.well_formed, Bool.and_eq_true, decide_eq_true_eq] at h
    obtain ⟨hlen, hitems⟩ := h
    obtain ⟨h1, h2⟩ := serialize_items_round_trip value_type items
      (memory.drop SIZEOF_SIZE_T) tail hitems
    rw [serialize_one_vector]
    refine ⟨?_, ?_⟩
    · simp only [h1, List.length_append, List.drop_drop]
      have : (size_t_bytes items.length).length = SIZEOF_SIZE_T := rfl
      rw [this]
    · have hl : ¬ ((size_t_bytes items.length ++
          (River.serialize (memory.drop SIZEOF_SIZE_T) items).1 ++ tail).length
            < SIZEOF_SIZE_T) := by
        simp [size_t_bytes, SIZEOF_SIZE_T]
      have htake : (size_t_bytes items.length ++
          (River.serialize (memory.drop SIZEOF_SIZE_T) items).1 ++ tail).take SIZEOF_SIZE_T
            = size_t_bytes items.length := by
        simp [size_t_bytes, SIZEOF_SIZE_T]
      have hdrop : (size_t_bytes items.length ++
          (River.serialize (memory.drop SIZEOF_SIZE_T) items).1 ++ tail).drop SIZEOF_SIZE_T
            = (River.serialize (memory.drop SIZEOF_SIZE_T) items).1 ++ tail := by
        simp [size_t_bytes, SIZEOF_SIZE_T]
      simp only [River.Param.type, River.deserialize_one, hl, if_false, htake, hdrop,
        size_t_value_bytes _ hlen, h2]
/-- Round trip of the items of a vector. -/
theorem serialize_items_round_trip : ∀ (value_type : River.ParamT)
    (items : List River.Param) (memory tail : List Nat),
    River.Param.items_well_formed value_type items = true →
    (River.serialize memory items).2 = memory.drop (River.serialize memory items).1.length ∧
    River.deserialize_items (River.deserialize_one value_type) items.length
      ((River.serialize memory items).1 ++ tail) = some (items, tail)
  | _, [], memory, tail, _ => by
    simp [River.serialize, River.deserialize_items]
  | value_type, first :: rest, memory, tail, h => by
    simp only [River.Param.items_well_formed, Bool.and_eq_true, decide_eq_true_eq] at h
    obtain ⟨⟨hty, hfirst⟩, hrest⟩ := h
    obtain ⟨h1, h2⟩ := serialize_one_round_trip first memory
      ((River.serialize (River.serialize_one first memory).2 rest).1 ++ tail) hfirst
    obtain ⟨h3, h4⟩ := serialize_items_round_trip value_type rest
      (River.serialize_one first memory).2 tail hrest
    rw [serialize_cons]
    refine ⟨?_, ?_⟩
    · simp only [h3, List.length_append]
      rw [h1, List.drop_drop]
    · rw [hty] at h2
      simp only [List.length_cons, River.deserialize_items, List.append_assoc, h2, h4]
end

/-- Round trip of a list of well-formed arguments, with any memory behind the bytes
written. -/
theorem serialize_round_trip_tail (args : List River.Param) (memory tail : List Nat)
    (h : River.well_formed_arguments args = true) :
    (River.serialize memory args).2 = memory.drop (River.serialize memory args).1.length ∧
    River.deserialize ((River.serialize memory args).1 ++ tail) (args.map River.Param.type)
      = some (args, tail) := by
  induction args generalizing memory tail with
  | nil => simp [River.serialize, River.deserialize]
  | cons first rest ih =>
    simp only [River.well_formed_arguments, List.all_cons, Bool.and_eq_true] at h
    obtain ⟨hfirst, hrest⟩ := h
    obtain ⟨h1, h2⟩ := serialize_one_round_trip first memory
      ((River.serialize (River.serialize_one first memory).2 rest).1 ++ tail) hfirst
    obtain ⟨h3, h4⟩ := ih (River.serialize_one first memory).2 tail hrest
    rw [serialize_cons]
    refine ⟨?_, ?_⟩
    · simp only [h3, List.length_append]
      rw [h1, List.drop_drop]
    · simp only [List.map_cons, River.deserialize, List.append_assoc, h2, h4]

/-- C19, as the claim states it, fails: for the string `"a\0b"` (three characters) and a
buffer of `buffer_size` = 4 bytes, `serialize` stores `'a'` and a NUL and moves the pointer
by 4; `deserialize` reads the string `"a"` back, not `"a\0b"`, and moves the pointer by 2. -/
theorem serialize_round_trip_counterexample :
    River.buffer_size example_nul_string = 4 ∧
    River.serialize [1, 2, 3, 4] example_nul_string = ([97, 0, 3, 4], []) ∧
    River.deserialize [97, 0, 3, 4] (example_nul_string.map River.Param.type)
      = some ([.string [97]], [3, 4]) ∧
    [River.Param.string [97]] ≠ example_nul_string :=
  ⟨rfl, rfl, rfl, fun h => by simp [example_nul_string] at h⟩

/-- C19, amended: for every list of arguments whose strings hold no NUL character and whose
vectors have fewer than 2^32 items, all of the vector's value type, `serialize` moves the
pointer over exactly the bytes it wrote, and `deserialize`, run on the buffer `serialize`
filled with the argument types, yields the arguments and stops where `serialize` stopped. -/
theorem serialize_round_trip (args : List River.Param) (memory : List Nat)
    (h : River.well_formed_arguments args = true) :
    (River.serialize memory args).2 = memory.drop (River.serialize memory args).1.length ∧
    River.deserialize ((River.serialize memory args).1 ++ (River.serialize memory args).2)
      (args.map River.Param.type) = some (args, (River.serialize memory args).2) :=
  serialize_round_trip_tail args memory (River.serialize memory args).2 h

/-- C19, amended, for `(std::vector<std::string>{"a", ""}, uint16_t 0x0201)` and a buffer
of twelve bytes. -/
theorem serialize_round_trip_witness :
    River.well_formed_arguments example_vector_arguments = true ∧
    (River.serialize [9, 9, 9, 9, 9, 9, 9, 9, 9, 9, 9, 9] example_vector_arguments).2
      = [9, 9, 9] ∧
    River.deserialize
      ((River.serialize [9, 9, 9, 9, 9, 9, 9, 9, 9, 9, 9, 9] example_vector_arguments).1 ++
        (River.serialize [9, 9, 9, 9, 9, 9, 9, 9, 9, 9, 9, 9] example_vector_arguments).2)
      (example_vector_arguments.map River.Param.type)
      = some (example_vector_arguments,
          (River.serialize [9, 9, 9, 9, 9, 9, 9, 9, 9, 9, 9, 9] example_vector_arguments).2) :=
  ⟨by decide, by decide,
    (serialize_round_trip example_vector_arguments [9, 9, 9, 9, 9, 9, 9, 9, 9, 9, 9, 9]
      (by decide)).2⟩

/-! ## `read_program_headers` -/

theorem segment_headers_of_storage_length (count : Nat) (storage : List Nat) :
    (ELF.segment_headers_of_storage count storage).length = count := by
  induction count generalizing storage with
  | zero => rfl
  | succ n ih => simp [ELF.segment_headers_of_storage, ih]

/-- On success the vector `read_program_headers` returns has `program_header_table_entries`
elements. -/
theorem read_program_headers_length (fd : FileDescriptor) (fresh : List Nat)
    (header : ELF.elf32_header) (headers : List ELF.elf32_segment_header)
    (h : (ELF.read_program_headers fd fresh header).ret = .ok headers) :
    headers.length = header.program_header_table_entries := by
  unfold ELF.read_program_headers at h
  by_cases hs : fd.seek header.program_header_table_position < 0
  · simp [hs] at h
  · by_cases hr : (fd.read header.program_header_table_position
        ((header.program_header_table_entry_size * header.program_header_table_entries)
          % WORD)).1 ≤ 0
    · by_cases hr0 : (fd.read header.program_header_table_position
          ((header.program_header_table_entry_size * header.program_header_table_entries)
            % WORD)).1 < 0
      · simp [hs, hr, hr0] at h
      · simp [hs, hr, hr0] at h
    · simp only [hs, if_false, hr, Except.ok.injEq] at h
      rw [← h]
      exact segment_headers_of_storage_length _ _

/-- When the header declares entries of at most `sizeof(elf32_segment_header)` bytes, the
read asked for fits the storage of the vector. -/
theorem program_headers_read_fits (header : ELF.elf32_header)
    (h : header.program_header_table_entry_size ≤ SIZEOF_SEGMENT_HEADER) :
    ELF.program_headers_read_size header ≤ ELF.program_headers_storage_size header := by
  unfold ELF.program_headers_read_size ELF.program_headers_storage_size
  exact Nat.le_trans (Nat.mod_le _ _) (Nat.mul_le_mul_right _ h)

/-- C21, evaluated on the code: for an executable ELF header that declares one program
header of 64 bytes, `read_program_headers` asks the file for 64 bytes into a vector whose
storage has 32; seek and read succeed, the vector returned has the one element declared,
and the last 32 bytes read are stored behind the end of the storage. -/
theorem read_program_headers_overruns_storage :
    ELF.can_execute example_wide_header = true ∧
    ELF.program_headers_read_size example_wide_header = 64 ∧
    ELF.program_headers_storage_size example_wide_header = 32 ∧
    (ELF.read_program_headers example_elf_file (List.replicate 32 0) example_wide_header).ret
      = .ok [{ p_type := 0x01010101, p_offset := 0x01010101, p_vaddr := 0x01010101,
               p_paddr := 0x01010101, p_filesz := 0x01010101, p_memsz := 0x01010101,
               p_flags := 0x01010101, p_align := 0x01010101 }] ∧
    (ELF.read_program_headers example_elf_file (List.replicate 32 0)
      example_wide_header).overrun = List.replicate 32 7 :=
  ⟨by decide, by decide, by decide, rfl, by decide⟩

/-! ## Reachable systems -/

end DuckOS
